import Mathlib

/-!
Verification development for the pack-crx repository (src/index.ts and
src/crx3.pb.js).  Byte buffers (`Uint8Array`, `Buffer`) are modelled as
`List Nat` whose elements are byte values; the opaque cryptographic
primitives (SHA-256 via node:crypto, RSA signing via node-rsa) are
modelled as abstract function parameters, exactly as the code consumes
them.  DataView reads/writes are modelled with explicit bounds checks
(an out-of-bounds access is JavaScript's RangeError); `TypedArray.set`
is modelled with its overrun check; `TypedArray.slice` clamps.
-/

namespace PackCrx

/-- Little-endian 4-byte encoding of a number, as written by
`DataView.setUint32(_, n, true)` (which takes `n` modulo 2^32). -/
def u32le (n : Nat) : List Nat :=
  [n % 256, n / 256 % 256, n / 65536 % 256, n / 16777216 % 256]

/-- Fuel-driven LEB128 (protobuf varint) encoder loop. -/
def leb128Go : Nat → Nat → List Nat
  | 0, _ => []
  | fuel + 1, n => if n < 128 then [n] else (n % 128 + 128) :: leb128Go fuel (n / 128)

/-- LEB128 (protobuf varint) encoding, as produced by pbf `writeVarint`.
Fuel `n + 1` always suffices because the argument shrinks by a factor 128. -/
def leb128 (n : Nat) : List Nat := leb128Go (n + 1) n

/-- pbf `readVarint`: little-endian base-128 decoding of a varint prefix;
`none` models pbf running past the end of the buffer (which throws). -/
def readVarint : List Nat → Option (Nat × List Nat)
  | [] => none
  | b :: rest =>
    if b < 128 then some (b, rest)
    else (readVarint rest).map fun p => (b % 128 + 128 * p.1, p.2)

/-- pbf `readBytes`: a varint length followed by that many raw bytes.
The byte extraction clamps like `subarray` does in JavaScript. -/
def readBytesPb (buf : List Nat) : Option (List Nat × List Nat) :=
  match readVarint buf with
  | none => none
  | some (len, rest) => some (rest.take len, rest.drop len)

/-- pbf `skip`: skip one field value according to its wire type. -/
def skipField (wtype : Nat) (buf : List Nat) : Option (List Nat) :=
  if wtype = 0 then (readVarint buf).map Prod.snd
  else if wtype = 1 then some (buf.drop 8)
  else if wtype = 2 then (readBytesPb buf).map Prod.snd
  else if wtype = 5 then some (buf.drop 4)
  else none

/-- A length-delimited protobuf field: key varint `tag*8 + 2`, length varint,
then the payload.  This is both pbf `writeBytesField` and (via `pb.finish` of
the submessage) pbf `writeMessage`. -/
def pbField (tag : Nat) (payload : List Nat) : List Nat :=
  leb128 (tag * 8 + 2) ++ leb128 payload.length ++ payload

/-- `SignedData.write` from src/crx3.pb.js: a single bytes field, tag 1,
holding `crx_id`.  In `packCrx3` the value is always a (truthy) Uint8Array,
so the field is always emitted. -/
def signedDataWrite (crxId : List Nat) : List Nat := pbField 1 crxId

/-- `AsymmetricKeyProof.write` from src/crx3.pb.js: bytes field 1 is
`public_key`, bytes field 2 is `signature`; both are always emitted in
`packCrx3` (Uint8Arrays are truthy). -/
def proofWrite (publicKey signature : List Nat) : List Nat :=
  pbField 1 publicKey ++ pbField 2 signature

/-- `CrxFileHeader.write` from src/crx3.pb.js: one embedded message per
RSA proof (tag 2), one per ECDSA proof (tag 3), then bytes field 10000
holding `signed_header_data`. -/
def crxFileHeaderWrite (rsaProofs ecdsaProofs : List (List Nat × List Nat))
    (signedHeaderData : List Nat) : List Nat :=
  (rsaProofs.flatMap fun pr => pbField 2 (proofWrite pr.1 pr.2)) ++
  (ecdsaProofs.flatMap fun pr => pbField 3 (proofWrite pr.1 pr.2)) ++
  pbField 10000 signedHeaderData

/-- `kSignature` from src/index.ts: the ASCII bytes of `"Cr24"`. -/
def kSignature : List Nat := [67, 114, 50, 52]

/-- `kVersion` from src/index.ts. -/
def kVersion : List Nat := [3, 0, 0, 0]

/-- `kSignatureContext` from src/index.ts: the char codes of the string
`"CRX3 SignedData\x00"` (15 printable ASCII characters plus one NUL). -/
def kSignatureContext : List Nat :=
  [67, 82, 88, 51, 32, 83, 105, 103, 110, 101, 100, 68, 97, 116, 97, 0]

/-- `generateBinaryCrxId` from src/index.ts: the first 16 bytes
(`CRX_ID_SIZE`) of the SHA-256 digest of the public key.  `hash` stands for
the opaque SHA-256 primitive from node:crypto. -/
def generateBinaryCrxId (hash : List Nat → List Nat) (publicKey : List Nat) : List Nat :=
  (hash publicKey).take 16

/-- `generateCrx3Signature` from src/index.ts: signs the concatenation of
`kSignatureContext`, the 4-byte little-endian size of `signedHeaderData`
(built with `DataView.setUint32(0, len, true)`), `signedHeaderData`, and
`contents`.  `sign` stands for the opaque pkcs1-sha256 RSA signer derived
from the private key. -/
def generateCrx3Signature (sign : List Nat → List Nat)
    (signedHeaderData contents : List Nat) : List Nat :=
  sign (kSignatureContext ++ u32le signedHeaderData.length ++ signedHeaderData ++ contents)

/-- `packCrx3` from src/index.ts.  The source fills an exactly-sized zero
buffer with consecutive `set` calls at offsets 0, 4, 8, 12, 12+header.length,
which is the concatenation below; the header size is written with
`DataView.setUint32(8, header.length, true)`. -/
def packCrx3 (hash sign : List Nat → List Nat)
    (privateKey publicKey contents : List Nat) : List Nat :=
  let signedHeaderData := signedDataWrite (generateBinaryCrxId hash publicKey)
  let signature := generateCrx3Signature sign signedHeaderData contents
  let header := crxFileHeaderWrite [(publicKey, signature)] [] signedHeaderData
  kSignature ++ kVersion ++ u32le header.length ++ header ++ contents

/-- `TypedArray.prototype.set`: copy `src` into `dst` at `offset`; JavaScript
throws RangeError (here `none`) when the source overruns the target. -/
def setBytes (dst src : List Nat) (offset : Nat) : Option (List Nat) :=
  if offset + src.length ≤ dst.length then
    some (dst.take offset ++ src ++ dst.drop (offset + src.length))
  else none

/-- `packCrx2` from src/index.ts, byte for byte: the result buffer is
allocated with `16 + publicKey.length + signature.length` bytes (the
source does not add `contents.length`), the magic, version, lengths, key
and signature are `set` at offsets 0/4/8/12/16/16+keyLen, and finally
`contents` is `set` at an offset equal to the whole buffer length.
`sign` stands for the pkcs1-sha1 RSA signer derived from the private key;
`none` models the RangeError that `set` throws on overrun. -/
def packCrx2 (sign : List Nat → List Nat)
    (privateKey publicKey contents : List Nat) : Option (List Nat) := do
  let signature := sign contents
  let length := 16 + publicKey.length + signature.length
  let r0 := List.replicate length 0
  let r1 ← setBytes r0 kSignature 0
  let r2 ← setBytes r1 (u32le 2) 4
  let r3 ← setBytes r2 (u32le publicKey.length) 8
  let r4 ← setBytes r3 (u32le signature.length) 12
  let r5 ← setBytes r4 publicKey 16
  let r6 ← setBytes r5 signature (16 + publicKey.length)
  setBytes r6 contents length

/-- Decoded `AsymmetricKeyProof` message (src/index.ts interface /
src/crx3.pb.js reader): both fields start out `null` (`none`). -/
structure AsymmetricKeyProof where
  public_key : Option (List Nat)
  signature : Option (List Nat)
deriving DecidableEq, Repr

/-- Decoded `CrxFileHeader` message (src/index.ts interface /
src/crx3.pb.js reader): proof lists start out empty, `signed_header_data`
starts out `null` (`none`). -/
structure CrxFileHeader where
  sha256_with_rsa : List AsymmetricKeyProof
  sha256_with_ecdsa : List AsymmetricKeyProof
  signed_header_data : Option (List Nat)
deriving DecidableEq, Repr

/-- `SignedData.read` from src/crx3.pb.js via pbf `readFields`: scan fields,
a tag-1 field sets `crx_id` with `readBytes`, any other tag is skipped by
wire type.  `fuel` bounds the number of loop iterations; each iteration
consumes at least one byte, so fuel `buf.length + 1` always suffices. -/
def signedDataRead : Nat → List Nat → Option (List Nat) → Option (Option (List Nat))
  | _, [], acc => some acc
  | 0, _ :: _, _ => none
  | fuel + 1, b :: rest, acc =>
    match readVarint (b :: rest) with
    | none => none
    | some (key, r1) =>
      if key / 8 = 1 then
        match readBytesPb r1 with
        | none => none
        | some (bs, r2) => signedDataRead fuel r2 (some bs)
      else
        match skipField (key % 8) r1 with
        | none => none
        | some r2 => signedDataRead fuel r2 acc

/-- `AsymmetricKeyProof.read` from src/crx3.pb.js via pbf `readFields`:
tag 1 sets `public_key`, tag 2 sets `signature`, other tags are skipped. -/
def proofRead : Nat → List Nat → AsymmetricKeyProof → Option AsymmetricKeyProof
  | _, [], acc => some acc
  | 0, _ :: _, _ => none
  | fuel + 1, b :: rest, acc =>
    match readVarint (b :: rest) with
    | none => none
    | some (key, r1) =>
      if key / 8 = 1 then
        match readBytesPb r1 with
        | none => none
        | some (bs, r2) => proofRead fuel r2 { acc with public_key := some bs }
      else if key / 8 = 2 then
        match readBytesPb r1 with
        | none => none
        | some (bs, r2) => proofRead fuel r2 { acc with signature := some bs }
      else
        match skipField (key % 8) r1 with
        | none => none
        | some r2 => proofRead fuel r2 acc

/-- `CrxFileHeader.read` from src/crx3.pb.js via pbf `readFields`: tag 2
appends an `AsymmetricKeyProof` submessage to `sha256_with_rsa`, tag 3 to
`sha256_with_ecdsa`, tag 10000 sets `signed_header_data`, other tags are
skipped.  Submessages are delimited by a varint length, exactly as pbf
computes `readVarint() + pos` as the end position. -/
def crxFileHeaderRead : Nat → List Nat → CrxFileHeader → Option CrxFileHeader
  | _, [], acc => some acc
  | 0, _ :: _, _ => none
  | fuel + 1, b :: rest, acc =>
    match readVarint (b :: rest) with
    | none => none
    | some (key, r1) =>
      if key / 8 = 2 then
        match readBytesPb r1 with
        | none => none
        | some (body, r2) =>
          match proofRead (body.length + 1) body ⟨none, none⟩ with
          | none => none
          | some pr =>
            crxFileHeaderRead fuel r2
              { acc with sha256_with_rsa := acc.sha256_with_rsa ++ [pr] }
      else if key / 8 = 3 then
        match readBytesPb r1 with
        | none => none
        | some (body, r2) =>
          match proofRead (body.length + 1) body ⟨none, none⟩ with
          | none => none
          | some pr =>
            crxFileHeaderRead fuel r2
              { acc with sha256_with_ecdsa := acc.sha256_with_ecdsa ++ [pr] }
      else if key / 8 = 10000 then
        match readBytesPb r1 with
        | none => none
        | some (bs, r2) =>
          crxFileHeaderRead fuel r2 { acc with signed_header_data := some bs }
      else
        match skipField (key % 8) r1 with
        | none => none
        | some r2 => crxFileHeaderRead fuel r2 acc

/-- The possible failures of `unpack`: `formatError` is the source's
`Error("The file given is not a valid CRX file")`; `boundsError` is the
RangeError a DataView access beyond the buffer throws; `pbfError` is a
failure inside the pbf protobuf reader. -/
inductive UnpackError where
  | formatError
  | boundsError
  | pbfError
deriving DecidableEq, Repr

/-- The result of `unpack`, mirroring the source's two return shapes. -/
inductive UnpackResult where
  | v2 (archive key sign : List Nat)
  | v3 (archive : List Nat) (header : CrxFileHeader)
deriving DecidableEq, Repr

/-- `DataView.getUint8`: a single byte, RangeError out of bounds. -/
def getU8 (buf : List Nat) (i : Nat) : Except UnpackError Nat :=
  match buf[i]? with
  | some b => .ok b
  | none => .error .boundsError

/-- `kSignature.every((v, i) => dv.getUint8(i) == v)` with its left-to-right
short-circuit: a mismatch yields `false`, but reading past the end of the
buffer is a RangeError. -/
def checkMagicFrom (buf : List Nat) : Nat → List Nat → Except UnpackError Bool
  | _, [] => .ok true
  | i, v :: vs => do
    let b ← getU8 buf i
    if b = v then checkMagicFrom buf (i + 1) vs else .ok false

/-- `DataView.getUint32(pos, true)`: four bytes, little-endian, RangeError
if any byte is out of bounds. -/
def getU32le (buf : List Nat) (pos : Nat) : Except UnpackError Nat := do
  let b0 ← getU8 buf pos
  let b1 ← getU8 buf (pos + 1)
  let b2 ← getU8 buf (pos + 2)
  let b3 ← getU8 buf (pos + 3)
  .ok (b0 + 256 * b1 + 65536 * b2 + 16777216 * b3)

/-- `unpack` from src/index.ts.  The DataView is created over the array's
buffer (the model assumes a fresh array, byte offset 0).  Version 2 slices
`key`, `sign` and `archive` from the declared lengths with no bounds
validation (`slice` clamps); version 3 slices the header, parses it with
the pbf reader, and takes the rest as the archive; anything else is the
format error. -/
def unpack (crx : List Nat) : Except UnpackError UnpackResult := do
  let ok ← checkMagicFrom crx 0 kSignature
  if ok then
    let crxVersion ← getU32le crx 4
    if crxVersion = 2 then
      let keyLength ← getU32le crx 8
      let signLength ← getU32le crx 12
      .ok (.v2 (crx.drop (16 + keyLength + signLength))
            ((crx.drop 16).take keyLength)
            ((crx.drop (16 + keyLength)).take signLength))
    else if crxVersion = 3 then
      let headerLength ← getU32le crx 8
      let archive := crx.drop (12 + headerLength)
      let headerBytes := (crx.drop 12).take headerLength
      match crxFileHeaderRead (headerBytes.length + 1) headerBytes ⟨[], [], none⟩ with
      | some header => .ok (.v3 archive header)
      | none => .error .pbfError
    else .error .formatError
  else .error .formatError

/-- The two hex digits (high nibble first) of a byte, as rendered by
`Buffer.toString("hex")`. -/
def hexDigits (b : Nat) : List Nat := [b / 16 % 16, b % 16]

/-- `generateCrxId` from src/index.ts: hex-render the SHA-256 digest of the
public key, map each hex nibble `v` to the character `(v + 10)` written in
base 26 (that is, `'a' + v`), and keep the first 32 characters. -/
def generateCrxId (hash : List Nat → List Nat) (publicKey : List Nat) : String :=
  String.mk ((((hash publicKey).flatMap hexDigits).map
    (fun v => Char.ofNat (97 + v))).take 32)

/-- The manifest fields that `pack` reads (`options.manifest.version` and
`options.manifest?.minimum_chrome_version`); the rest of the
`ChromeManifest` schema is pure data the engine never inspects. -/
structure Manifest where
  version : String
  minimum_chrome_version : Option String
deriving DecidableEq, Repr

/-- The three states of a `PackInput` field: a concrete value (JavaScript
value), requested (`null`), or absent (`undefined`). -/
inductive Opt3 (α : Type) where
  | given (val : α)
  | req
  | unset
deriving DecidableEq, Repr

/-- The `contents` field of `PackInput`: a ZIP buffer, a directory path, or
absent (`undefined`; the source gives `contents` no `null` state). -/
inductive ContentsField where
  | bytes (b : List Nat)
  | path (p : String)
  | unset
deriving DecidableEq, Repr

/-- The mutable `PackInput` record threaded through `pack`, after the
initial prologue that loads `privateKey`/`publicKey` from files when they
are path strings (simple collaborator I/O, out of the engine proper).  The
`rsa` field, a NodeRSA instance caching the key material, is represented by
the abstract signer/keygen collaborators in `PackEnv` instead. -/
structure PackOptions where
  contents : ContentsField
  privateKey : Opt3 (List Nat)
  keySize : Option Nat
  publicKey : Opt3 (List Nat)
  id : Opt3 String
  crx : Opt3 (List Nat)
  crxVersion : Option Nat
  crxUrl : Option String
  updateXML : Opt3 String
  extVersion : Opt3 String
  minChromeVersion : Opt3 String
  manifest : Opt3 Manifest
deriving DecidableEq, Repr

/-- The external collaborators `pack` invokes: SHA-256, RSA key
generation/derivation (NodeRSA), directory packaging (`packContents`),
the two signing schemes, and the update-XML renderer
(`generateUpdateXML`). -/
structure PackEnv where
  sha256 : List Nat → List Nat
  genPrivateKey : Nat → List Nat
  derivePublicKey : List Nat → List Nat
  packContentsDir : String → List Nat × Manifest
  sign3 : List Nat → List Nat → List Nat
  sign2 : List Nat → List Nat → List Nat
  renderUpdateXML : String → String → String → Option String → String

/-- Lines 512-517 of src/index.ts: requesting `updateXML` without a
`crxUrl` is an error; otherwise its unset prerequisites `id`, `extVersion`
and `minChromeVersion` are promoted to requested. -/
def backUpdateXML (o : PackOptions) : Except String PackOptions :=
  if o.updateXML = Opt3.req then
    if o.crxUrl = none then .error "crxUrl must be defined to generate updateXML"
    else .ok { o with
      id := if o.id = Opt3.unset then Opt3.req else o.id,
      extVersion := if o.extVersion = Opt3.unset then Opt3.req else o.extVersion,
      minChromeVersion :=
        if o.minChromeVersion = Opt3.unset then Opt3.req else o.minChromeVersion }
  else .ok o

/-- Lines 518-520: a requested `extVersion` promotes an unset `manifest`. -/
def backExtVersion (o : PackOptions) : PackOptions :=
  if o.extVersion = Opt3.req ∧ o.manifest = Opt3.unset then
    { o with manifest := Opt3.req }
  else o

/-- Lines 521-523: a requested `minChromeVersion` promotes an unset
`manifest`. -/
def backMinChrome (o : PackOptions) : PackOptions :=
  if o.minChromeVersion = Opt3.req ∧ o.manifest = Opt3.unset then
    { o with manifest := Opt3.req }
  else o

/-- Lines 524-528: requesting `crx` without `contents` is an error;
otherwise unset keys are promoted to requested. -/
def backCrx (o : PackOptions) : Except String PackOptions :=
  if o.crx = Opt3.req then
    if o.contents = ContentsField.unset then
      .error "contents must be defined to generate crx"
    else .ok { o with
      privateKey := if o.privateKey = Opt3.unset then Opt3.req else o.privateKey,
      publicKey := if o.publicKey = Opt3.unset then Opt3.req else o.publicKey }
  else .ok o

/-- Lines 529-531: a requested `id` promotes an unset `publicKey`. -/
def backId (o : PackOptions) : PackOptions :=
  if o.id = Opt3.req ∧ o.publicKey = Opt3.unset then
    { o with publicKey := Opt3.req }
  else o

/-- Lines 532-534: a requested `publicKey` promotes an unset `privateKey`. -/
def backPublicKey (o : PackOptions) : PackOptions :=
  if o.publicKey = Opt3.req ∧ o.privateKey = Opt3.unset then
    { o with privateKey := Opt3.req }
  else o

/-- Lines 536-543: a requested `privateKey` generates a fresh key pair of
size `keySize || 4096` (JavaScript `||`: a zero `keySize` also falls back)
and unconditionally overwrites `publicKey` with the matching public key;
otherwise a requested `publicKey` is derived from the given `privateKey`
(the source asserts `options.privateKey!`, which only type-checks because
the backward pass has made a given private key inevitable; a missing one
would be a TypeError inside NodeRSA). -/
def fwdKeys (env : PackEnv) (o : PackOptions) : Except String PackOptions :=
  if o.privateKey = Opt3.req then
    let priv := env.genPrivateKey
      (match o.keySize with | some k => if k = 0 then 4096 else k | none => 4096)
    .ok { o with privateKey := Opt3.given priv,
                 publicKey := Opt3.given (env.derivePublicKey priv) }
  else if o.publicKey = Opt3.req then
    match o.privateKey with
    | Opt3.given priv => .ok { o with publicKey := Opt3.given (env.derivePublicKey priv) }
    | _ => .error "TypeError: privateKey is not available"
  else .ok o

/-- Lines 544-546: when `contents` is a directory path, package the
directory; the destructuring assignment writes both `contents` and
`manifest`, overwriting any caller-given manifest. -/
def fwdContents (env : PackEnv) (o : PackOptions) : PackOptions :=
  match o.contents with
  | ContentsField.path p =>
    let r := env.packContentsDir p
    { o with contents := ContentsField.bytes r.1, manifest := Opt3.given r.2 }
  | _ => o

/-- Lines 547-550: a requested `crx` is built by `packCrx3` when
`crxVersion` is 3 or undefined, by `packCrx2` when it is 2, and — the
source has no final else — is left requested for any other version.
`packCrx2`'s RangeError propagates out of `pack`. -/
def fwdCrx (env : PackEnv) (o : PackOptions) : Except String PackOptions :=
  if o.crx = Opt3.req then
    if o.crxVersion = some 3 ∨ o.crxVersion = none then
      match o.privateKey, o.publicKey, o.contents with
      | Opt3.given priv, Opt3.given pub, ContentsField.bytes c =>
        .ok { o with crx := Opt3.given (packCrx3 env.sha256 (env.sign3 priv) priv pub c) }
      | _, _, _ => .error "TypeError: missing prerequisite for crx"
    else if o.crxVersion = some 2 then
      match o.privateKey, o.publicKey, o.contents with
      | Opt3.given priv, Opt3.given pub, ContentsField.bytes c =>
        match packCrx2 (env.sign2 priv) priv pub c with
        | some bytes => .ok { o with crx := Opt3.given bytes }
        | none => .error "RangeError: offset is out of bounds"
      | _, _, _ => .error "TypeError: missing prerequisite for crx"
    else .ok o
  else .ok o

/-- Lines 551-553: a requested `id` is derived from the public key. -/
def fwdId (env : PackEnv) (o : PackOptions) : Except String PackOptions :=
  if o.id = Opt3.req then
    match o.publicKey with
    | Opt3.given pub => .ok { o with id := Opt3.given (generateCrxId env.sha256 pub) }
    | _ => .error "TypeError: publicKey is not available"
  else .ok o

/-- Lines 554-557: a requested `extVersion` needs a manifest (`!manifest`
throws for both `null` and `undefined`). -/
def fwdExtVersion (o : PackOptions) : Except String PackOptions :=
  if o.extVersion = Opt3.req then
    match o.manifest with
    | Opt3.given m => .ok { o with extVersion := Opt3.given m.version }
    | _ => .error "manifest must be defined to generate extVersion"
  else .ok o

/-- Lines 558-560: `options.manifest?.minimum_chrome_version || (crxVersion
== 3 || crxVersion == undefined ? "73.0.3683" : undefined)`.  JavaScript
`||` treats the empty string as falsy, and assigning `undefined` leaves the
field unset. -/
def fwdMinChrome (o : PackOptions) : PackOptions :=
  if o.minChromeVersion = Opt3.req then
    let mv : Option String :=
      match o.manifest with
      | Opt3.given m => m.minimum_chrome_version
      | _ => none
    let fallback : Option String :=
      if o.crxVersion = some 3 ∨ o.crxVersion = none then some "73.0.3683" else none
    let resolved : Option String :=
      match mv with
      | some s => if s = "" then fallback else some s
      | none => fallback
    { o with minChromeVersion :=
        match resolved with | some s => Opt3.given s | none => Opt3.unset }
  else o

/-- Lines 561-563: a requested `updateXML` is rendered from `id`, `crxUrl`,
`extVersion` and the optional `minChromeVersion` (the non-null assertions
cannot fail at this point; JavaScript would stringify `undefined`). -/
def fwdUpdateXML (env : PackEnv) (o : PackOptions) : PackOptions :=
  if o.updateXML = Opt3.req then
    let idStr := match o.id with | Opt3.given s => s | _ => "undefined"
    let urlStr := match o.crxUrl with | some s => s | none => "undefined"
    let verStr := match o.extVersion with | Opt3.given s => s | _ => "undefined"
    let mcv : Option String :=
      match o.minChromeVersion with | Opt3.given s => some s | _ => none
    { o with updateXML := Opt3.given (env.renderUpdateXML idStr urlStr verStr mcv) }
  else o

/-- `pack` from src/index.ts (lines 489-565), as the exact sequence of its
statement blocks: the backward promotion passes, then the forward
resolution passes, finally returning the same record. -/
def pack (env : PackEnv) (o : PackOptions) : Except String PackOptions := do
  let o1 ← backUpdateXML o
  let o2 := backExtVersion o1
  let o3 := backMinChrome o2
  let o4 ← backCrx o3
  let o5 := backId o4
  let o6 := backPublicKey o5
  let o7 ← fwdKeys env o6
  let o8 := fwdContents env o7
  let o9 ← fwdCrx env o8
  let o10 ← fwdId env o9
  let o11 ← fwdExtVersion o10
  let o12 := fwdMinChrome o11
  return fwdUpdateXML env o12

/-! ### Basic lemmas about the Except monad and the DataView model -/

lemma bindOk {ε α β : Type} (a : α) (f : α → Except ε β) :
    (Except.ok a >>= f) = f a := rfl

lemma bindError {ε α β : Type} (e : ε) (f : α → Except ε β) :
    ((Except.error e : Except ε α) >>= f) = .error e := rfl

lemma checkMagic_of_pre {buf : List Nat} (h : kSignature <+: buf) :
    checkMagicFrom buf 0 kSignature = .ok true := by
  obtain ⟨t, ht⟩ := h
  subst ht
  simp [checkMagicFrom, getU8, kSignature, bindOk, bindError]

lemma getU32le_oob {buf : List Nat} {pos : Nat} (h : buf.length < pos + 4) :
    getU32le buf pos = .error .boundsError := by
  unfold getU32le getU8
  cases h0 : buf[pos]? with
  | none => rfl
  | some b0 =>
    cases h1 : buf[pos + 1]? with
    | none => rfl
    | some b1 =>
      cases h2 : buf[pos + 2]? with
      | none => rfl
      | some b2 =>
        cases h3 : buf[pos + 3]? with
        | none => rfl
        | some b3 =>
          obtain ⟨hlt, -⟩ := List.getElem?_eq_some_iff.mp h3
          omega

/-! ### C4: unpack failure taxonomy on malformed input -/

lemma unpack_no_magic_inbounds {buf : List Nat} (h4 : 4 ≤ buf.length)
    (hnm : ¬ kSignature <+: buf) : unpack buf = .error .formatError := by
  match buf, h4 with
  | b0 :: b1 :: b2 :: b3 :: rest, _ =>
    by_cases e0 : b0 = 67
    · by_cases e1 : b1 = 114
      · by_cases e2 : b2 = 50
        · by_cases e3 : b3 = 52
          · exact absurd ⟨rest, by simp [kSignature, e0, e1, e2, e3]⟩ hnm
          · subst e0 e1 e2
            simp [unpack, checkMagicFrom, getU8, kSignature, bindOk, bindError, e3]
        · subst e0 e1
          simp [unpack, checkMagicFrom, getU8, kSignature, bindOk, bindError, e2]
      · subst e0
        simp [unpack, checkMagicFrom, getU8, kSignature, bindOk, bindError, e1]
    · simp [unpack, checkMagicFrom, getU8, kSignature, bindOk, bindError, e0]

lemma unpack_magic_short {buf : List Nat} (hm : kSignature <+: buf)
    (h8 : buf.length < 8) : unpack buf = .error .boundsError := by
  unfold unpack
  rw [checkMagic_of_pre hm, bindOk, if_pos rfl,
    getU32le_oob (by omega), bindError]

lemma unpack_short_magicpre {buf : List Nat} (h4 : buf.length < 4)
    (hp : buf <+: kSignature) : unpack buf = .error .boundsError := by
  obtain ⟨t, ht⟩ := hp
  have hlen : buf.length + t.length = 4 := by
    have := congrArg List.length ht
    simpa [kSignature] using this
  match buf, t, ht, h4 with
  | [], _, ht, _ =>
    simp [kSignature] at ht
    subst ht
    simp [unpack, checkMagicFrom, getU8, kSignature, bindOk, bindError]
  | [a], _, ht, _ =>
    simp [kSignature, List.cons_eq_cons] at ht
    obtain ⟨ha, ht⟩ := ht
    subst ha
    simp [unpack, checkMagicFrom, getU8, kSignature, bindOk, bindError]
  | [a, b], _, ht, _ =>
    simp [kSignature, List.cons_eq_cons] at ht
    obtain ⟨ha, hb, ht⟩ := ht
    subst ha hb
    simp [unpack, checkMagicFrom, getU8, kSignature, bindOk, bindError]
  | [a, b, c], _, ht, _ =>
    simp [kSignature, List.cons_eq_cons] at ht
    obtain ⟨ha, hb, hc, ht⟩ := ht
    subst ha hb hc
    simp [unpack, checkMagicFrom, getU8, kSignature, bindOk, bindError]

lemma unpack_short_nonpre {buf : List Nat} (h4 : buf.length < 4)
    (hp : ¬ buf <+: kSignature) : unpack buf = .error .formatError := by
  match buf, h4 with
  | [], _ => exact absurd (List.nil_prefix) hp
  | [a], _ =>
    by_cases e0 : a = 67
    · exact absurd (by simp [kSignature, e0]) hp
    · simp [unpack, checkMagicFrom, getU8, kSignature, bindOk, bindError, e0]
  | [a, b], _ =>
    by_cases e0 : a = 67
    · by_cases e1 : b = 114
      · exact absurd (by simp [kSignature, e0, e1]) hp
      · subst e0
        simp [unpack, checkMagicFrom, getU8, kSignature, bindOk, bindError, e1]
    · simp [unpack, checkMagicFrom, getU8, kSignature, bindOk, bindError, e0]
  | [a, b, c], _ =>
    by_cases e0 : a = 67
    · by_cases e1 : b = 114
      · by_cases e2 : c = 50
        · exact absurd (by simp [kSignature, e0, e1, e2]) hp
        · subst e0 e1
          simp [unpack, checkMagicFrom, getU8, kSignature, bindOk, bindError, e2]
      · subst e0
        simp [unpack, checkMagicFrom, getU8, kSignature, bindOk, bindError, e1]
    · simp [unpack, checkMagicFrom, getU8, kSignature, bindOk, bindError, e0]

lemma unpack_bad_version {buf : List Nat} {v : Nat} (hm : kSignature <+: buf)
    (hv : getU32le buf 4 = .ok v) (h2 : v ≠ 2) (h3 : v ≠ 3) :
    unpack buf = .error .formatError := by
  unfold unpack
  rw [checkMagic_of_pre hm, bindOk, if_pos rfl, hv, bindOk,
    if_neg (by simpa using h2), if_neg (by simpa using h3)]

/-- C4 (counterexample): on the empty buffer, `unpack` does not raise the
format error of the claim; the very first `DataView.getUint8` read is out of
bounds, a RangeError. -/
theorem c4_empty_is_bounds_error :
    unpack [] = .error .boundsError ∧ UnpackError.boundsError ≠ UnpackError.formatError :=
  ⟨rfl, by decide⟩

/-- C4 (amended): `unpack` fails on every buffer that lacks the magic or has
a version other than 2 or 3, and never returns a partial result; the failure
is the format error exactly when the offending byte is readable (a mismatch
with `Cr24` among the first four bytes, or a version field other than 2 or 3
in a buffer of at least 8 bytes), while the empty buffer, proper prefixes of
`Cr24`, and magic-prefixed buffers shorter than 8 bytes fail with an
out-of-bounds RangeError instead. -/
theorem c4_unpack_failure_taxonomy :
    (∀ buf : List Nat, 4 ≤ buf.length → ¬ kSignature <+: buf →
      unpack buf = .error .formatError) ∧
    (∀ buf : List Nat, buf.length < 4 → ¬ buf <+: kSignature →
      unpack buf = .error .formatError) ∧
    (∀ buf : List Nat, buf.length < 4 → buf <+: kSignature →
      unpack buf = .error .boundsError) ∧
    (∀ buf : List Nat, kSignature <+: buf → buf.length < 8 →
      unpack buf = .error .boundsError) ∧
    (∀ (buf : List Nat) (v : Nat), kSignature <+: buf → getU32le buf 4 = .ok v →
      v ≠ 2 → v ≠ 3 → unpack buf = .error .formatError) :=
  ⟨fun _ h4 hnm => unpack_no_magic_inbounds h4 hnm,
   fun _ h4 hp => unpack_short_nonpre h4 hp,
   fun _ h4 hp => unpack_short_magicpre h4 hp,
   fun _ hm h8 => unpack_magic_short hm h8,
   fun _ _ hm hv h2 h3 => unpack_bad_version hm hv h2 h3⟩

/-- C4 (witness): the taxonomy applied to concrete buffers — a four-byte
buffer with the wrong magic, and a well-formed prefix with version 5. -/
theorem c4_unpack_failure_taxonomy_witness :
    unpack [0, 1, 2, 3] = .error .formatError ∧
    unpack [67, 114, 50, 52, 5, 0, 0, 0] = .error .formatError :=
  ⟨c4_unpack_failure_taxonomy.1 [0, 1, 2, 3] (by decide) (by decide),
   c4_unpack_failure_taxonomy.2.2.2.2 [67, 114, 50, 52, 5, 0, 0, 0] 5
     (by decide) rfl (by decide) (by decide)⟩

/-- C10: a buffer with the magic, version 2, and declared key/signature
lengths whose combined extent overruns the buffer decodes without any
error into a v2 record whose `key`, `sign` and `archive` are the silently
clamped slices (the archive, past the declared extent, is empty). -/
theorem c10_v2_truncated (buf : List Nat) (kl sl : Nat)
    (hm : kSignature <+: buf) (hv : getU32le buf 4 = .ok 2)
    (hk : getU32le buf 8 = .ok kl) (hs : getU32le buf 12 = .ok sl)
    (hover : buf.length < 16 + kl + sl) :
    unpack buf = .ok (.v2 [] ((buf.drop 16).take kl) ((buf.drop (16 + kl)).take sl)) := by
  have hnil : buf.drop (16 + kl + sl) = [] := List.drop_eq_nil_of_le (by omega)
  unfold unpack
  rw [checkMagic_of_pre hm, bindOk, if_pos rfl, hv, bindOk, if_pos rfl,
    hk, bindOk, hs, bindOk, hnil]

/-- C10 (witness): a 16-byte buffer declaring a 4294967295-byte key and
signature decodes to a v2 record with empty key, signature and archive. -/
theorem c10_v2_truncated_witness :
    unpack [67, 114, 50, 52, 2, 0, 0, 0, 255, 255, 255, 255, 255, 255, 255, 255] =
      .ok (.v2 [] [] []) := by
  simpa using c10_v2_truncated
    [67, 114, 50, 52, 2, 0, 0, 0, 255, 255, 255, 255, 255, 255, 255, 255]
    4294967295 4294967295 (by decide) rfl rfl rfl (by decide)

/-! ### C1: packCrx2 -/

lemma optBindSome {α β : Type} (a : α) (f : α → Option β) : (some a >>= f) = f a := rfl

lemma setBytes_length {d s : List Nat} {o : Nat} {d' : List Nat}
    (h : setBytes d s o = some d') : d'.length = d.length := by
  unfold setBytes at h
  split at h
  · cases h
    simp only [List.length_append, List.length_take, List.length_drop]
    omega
  · exact absurd h (by simp)

/-- C1 (code bug): `packCrx2` allocates only `16 + keyLen + sigLen` bytes —
the source omits `contents.length` from the buffer size — and then writes
`contents` at an offset equal to the buffer length, so for every nonempty
`contents` the final `TypedArray.set` throws a RangeError and no container
ending in the contents bytes is ever produced. -/
theorem c1_packCrx2_overrun (sign : List Nat → List Nat)
    (priv pub contents : List Nat) (hc : contents ≠ []) :
    packCrx2 sign priv pub contents = none := by
  have hcl : 0 < contents.length := List.length_pos.mpr hc
  simp only [packCrx2]
  cases h1 : setBytes (List.replicate (16 + pub.length + (sign contents).length) 0)
      kSignature 0 with
  | none => rfl
  | some r1 =>
    simp only [optBindSome]
    cases h2 : setBytes r1 (u32le 2) 4 with
    | none => rfl
    | some r2 =>
      simp only [optBindSome]
      cases h3 : setBytes r2 (u32le pub.length) 8 with
      | none => rfl
      | some r3 =>
        simp only [optBindSome]
        cases h4 : setBytes r3 (u32le (sign contents).length) 12 with
        | none => rfl
        | some r4 =>
          simp only [optBindSome]
          cases h5 : setBytes r4 pub 16 with
          | none => rfl
          | some r5 =>
            simp only [optBindSome]
            cases h6 : setBytes r5 (sign contents) (16 + pub.length) with
            | none => rfl
            | some r6 =>
              simp only [optBindSome]
              have l1 := setBytes_length h1
              have l2 := setBytes_length h2
              have l3 := setBytes_length h3
              have l4 := setBytes_length h4
              have l5 := setBytes_length h5
              have l6 := setBytes_length h6
              simp only [List.length_replicate] at l1
              unfold setBytes
              rw [if_neg (by omega)]

/-- C1 (witness): the overrun at a concrete input — a one-byte contents
buffer with empty keys makes `packCrx2` throw. -/
theorem c1_packCrx2_overrun_witness :
    packCrx2 (fun _ => [5, 5]) [] [] [7] = none :=
  c1_packCrx2_overrun (fun _ => [5, 5]) [] [] [7] (by decide)

/-! ### C7: generateCrxId -/

lemma length_flatMap_hexDigits (l : List Nat) :
    (l.flatMap hexDigits).length = 2 * l.length := by
  induction l with
  | nil => rfl
  | cons b t ih => simp [hexDigits, ih]; omega

lemma mem_flatMap_hexDigits_lt {l : List Nat} {x : Nat}
    (hx : x ∈ l.flatMap hexDigits) : x < 16 := by
  induction l with
  | nil => simp at hx
  | cons b t ih =>
    simp only [List.flatMap_cons, List.mem_append] at hx
    rcases hx with h | h
    · simp [hexDigits] at h
      rcases h with h | h <;> omega
    · exact ih h

lemma charOfNat_toNat {v : Nat} (h : v < 16) :
    (Char.ofNat (97 + v)).toNat = 97 + v := by
  interval_cases v <;> rfl

/-- C7: for every key `k` (with the SHA-256 primitive producing its 32-byte
digest), `generateCrxId` yields a string of length exactly 32, every
character lies between `a` (97) and `p` (112), the character list is
exactly the nibble sequence of the digest mapped through `v ↦ 'a' + v`
truncated to 32 (so the i-th character encodes the i-th hex nibble), and
the function is deterministic. -/
theorem c7_generateCrxId (hash : List Nat → List Nat) (k : List Nat)
    (hh : (hash k).length = 32) :
    (generateCrxId hash k).length = 32 ∧
    (∀ c ∈ (generateCrxId hash k).toList, 97 ≤ c.toNat ∧ c.toNat ≤ 112) ∧
    ((generateCrxId hash k).toList =
      (((hash k).flatMap hexDigits).take 32).map (fun v => Char.ofNat (97 + v))) ∧
    (∀ k2, k2 = k → generateCrxId hash k2 = generateCrxId hash k) := by
  have hlen : ((hash k).flatMap hexDigits).length = 64 := by
    rw [length_flatMap_hexDigits, hh]
  refine ⟨?_, ?_, ?_, fun k2 hk2 => by rw [hk2]⟩
  · show (String.mk _).length = 32
    simp [String.length, List.length_take, hlen]
  · intro c hc
    replace hc : c ∈ (((hash k).flatMap hexDigits).map
        (fun v => Char.ofNat (97 + v))).take 32 := hc
    have hc2 := List.mem_of_mem_take hc
    obtain ⟨v, hv, rfl⟩ := List.mem_map.mp hc2
    have hv16 := mem_flatMap_hexDigits_lt hv
    rw [charOfNat_toNat hv16]
    omega
  · show (((hash k).flatMap hexDigits).map (fun v => Char.ofNat (97 + v))).take 32 = _
    rw [List.map_take]

/-- C7 (witness): the theorem applied to a concrete 32-byte digest. -/
theorem c7_generateCrxId_witness :
    (generateCrxId (fun _ => List.range 32) []).length = 32 ∧
    (∀ c ∈ (generateCrxId (fun _ => List.range 32) []).toList,
      97 ≤ c.toNat ∧ c.toNat ≤ 112) ∧
    ((generateCrxId (fun _ => List.range 32) []).toList =
      ((((fun (_ : List Nat) => List.range 32) ([] : List Nat)).flatMap
        hexDigits).take 32).map (fun v => Char.ofNat (97 + v))) ∧
    (∀ k2, k2 = ([] : List Nat) →
      generateCrxId (fun _ => List.range 32) k2 =
        generateCrxId (fun _ => List.range 32) []) :=
  c7_generateCrxId (fun _ => List.range 32) [] (by simp)

/-! ### Characterizations of the pack resolution steps -/

lemma backUpdateXML_char {o o' : PackOptions} (h : backUpdateXML o = .ok o') :
    o' = { o with
      id := if o.updateXML = Opt3.req ∧ o.id = Opt3.unset then Opt3.req else o.id,
      extVersion :=
        if o.updateXML = Opt3.req ∧ o.extVersion = Opt3.unset then Opt3.req
        else o.extVersion,
      minChromeVersion :=
        if o.updateXML = Opt3.req ∧ o.minChromeVersion = Opt3.unset then Opt3.req
        else o.minChromeVersion } := by
  unfold backUpdateXML at h
  by_cases h1 : o.updateXML = Opt3.req
  · rw [if_pos h1] at h
    by_cases h2 : o.crxUrl = none
    · rw [if_pos h2] at h
      exact absurd h (by simp)
    · rw [if_neg h2] at h
      injection h with h
      subst h
      simp [h1]
  · rw [if_neg h1] at h
    injection h with h
    subst h
    simp [h1]

lemma backExtVersion_char (o : PackOptions) :
    backExtVersion o = { o with
      manifest :=
        if o.extVersion = Opt3.req ∧ o.manifest = Opt3.unset then Opt3.req
        else o.manifest } := by
  unfold backExtVersion
  split
  · simp_all
  · simp_all

lemma backMinChrome_char (o : PackOptions) :
    backMinChrome o = { o with
      manifest :=
        if o.minChromeVersion = Opt3.req ∧ o.manifest = Opt3.unset then Opt3.req
        else o.manifest } := by
  unfold backMinChrome
  split
  · simp_all
  · simp_all

lemma backCrx_error {o : PackOptions} (hcrx : o.crx = Opt3.req)
    (hc : o.contents = ContentsField.unset) :
    backCrx o = .error "contents must be defined to generate crx" := by
  unfold backCrx
  rw [if_pos hcrx, if_pos hc]

lemma backCrx_char {o o' : PackOptions} (h : backCrx o = .ok o') :
    o' = { o with
      privateKey :=
        if o.crx = Opt3.req ∧ o.privateKey = Opt3.unset then Opt3.req
        else o.privateKey,
      publicKey :=
        if o.crx = Opt3.req ∧ o.publicKey = Opt3.unset then Opt3.req
        else o.publicKey } := by
  unfold backCrx at h
  by_cases h1 : o.crx = Opt3.req
  · rw [if_pos h1] at h
    by_cases h2 : o.contents = ContentsField.unset
    · rw [if_pos h2] at h
      exact absurd h (by simp)
    · rw [if_neg h2] at h
      injection h with h
      subst h
      simp [h1]
  · rw [if_neg h1] at h
    injection h with h
    subst h
    simp [h1]

lemma backId_char (o : PackOptions) :
    backId o = { o with
      publicKey :=
        if o.id = Opt3.req ∧ o.publicKey = Opt3.unset then Opt3.req
        else o.publicKey } := by
  unfold backId
  split
  · simp_all
  · simp_all

lemma backPublicKey_char (o : PackOptions) :
    backPublicKey o = { o with
      privateKey :=
        if o.publicKey = Opt3.req ∧ o.privateKey = Opt3.unset then Opt3.req
        else o.privateKey } := by
  unfold backPublicKey
  split
  · simp_all
  · simp_all

lemma fwdKeys_char {env : PackEnv} {o o' : PackOptions}
    (h : fwdKeys env o = .ok o') :
    (o.privateKey = Opt3.req →
      o' = { o with
        privateKey := Opt3.given (env.genPrivateKey
          (match o.keySize with | some k => if k = 0 then 4096 else k | none => 4096)),
        publicKey := Opt3.given (env.derivePublicKey (env.genPrivateKey
          (match o.keySize with | some k => if k = 0 then 4096 else k | none => 4096))) }) ∧
    (o.privateKey ≠ Opt3.req → o.publicKey ≠ Opt3.req → o' = o) ∧
    (o.privateKey ≠ Opt3.req → o.publicKey = Opt3.req →
      ∃ p, o.privateKey = Opt3.given p ∧
        o' = { o with publicKey := Opt3.given (env.derivePublicKey p) }) := by
  unfold fwdKeys at h
  by_cases h1 : o.privateKey = Opt3.req
  · rw [if_pos h1] at h
    injection h with h
    subst h
    exact ⟨fun _ => rfl, fun hn => absurd h1 hn, fun hn => absurd h1 hn⟩
  · rw [if_neg h1] at h
    by_cases h2 : o.publicKey = Opt3.req
    · rw [if_pos h2] at h
      refine ⟨fun hr => absurd hr h1, fun _ hn => absurd h2 hn, fun _ _ => ?_⟩
      cases hp : o.privateKey with
      | given p =>
        rw [hp] at h
        injection h with h
        subst h
        exact ⟨p, rfl, rfl⟩
      | req => exact absurd hp h1
      | unset =>
        rw [hp] at h
        exact absurd h (by simp)
    · rw [if_neg h2] at h
      injection h with h
      subst h
      exact ⟨fun hr => absurd hr h1, fun _ _ => rfl, fun _ hr => absurd hr h2⟩

lemma fwdContents_char (env : PackEnv) (o : PackOptions) :
    (∀ p, o.contents = ContentsField.path p →
      fwdContents env o = { o with
        contents := ContentsField.bytes (env.packContentsDir p).1,
        manifest := Opt3.given (env.packContentsDir p).2 }) ∧
    ((∀ p, o.contents ≠ ContentsField.path p) → fwdContents env o = o) := by
  unfold fwdContents
  cases hc : o.contents with
  | bytes b => exact ⟨fun p hp => by simp at hp, fun _ => rfl⟩
  | path p => exact ⟨fun q hq => by rw [(by injection hq : p = q)], fun hn => absurd rfl (hn p)⟩
  | unset => exact ⟨fun p hp => by simp at hp, fun _ => rfl⟩

lemma fwdCrx_frame {env : PackEnv} {o o' : PackOptions}
    (h : fwdCrx env o = .ok o') :
    o'.contents = o.contents ∧ o'.privateKey = o.privateKey ∧
    o'.keySize = o.keySize ∧ o'.publicKey = o.publicKey ∧
    o'.crxVersion = o.crxVersion ∧ o'.crxUrl = o.crxUrl ∧
    o'.id = o.id ∧ o'.updateXML = o.updateXML ∧
    o'.extVersion = o.extVersion ∧ o'.minChromeVersion = o.minChromeVersion ∧
    o'.manifest = o.manifest ∧
    (o.crx ≠ Opt3.req → o' = o) ∧
    (∀ v, o.crx = Opt3.given v → o'.crx = Opt3.given v) := by
  unfold fwdCrx at h
  by_cases h1 : o.crx = Opt3.req
  · rw [if_pos h1] at h
    split at h
    · split at h
      · injection h with h
        subst h
        refine ⟨rfl, rfl, rfl, rfl, rfl, rfl, rfl, rfl, rfl, rfl, rfl,
          fun hn => absurd h1 hn, fun v hv => by rw [h1] at hv; cases hv⟩
      · exact absurd h (by simp)
    · split at h
      · split at h
        · split at h
          · injection h with h
            subst h
            refine ⟨rfl, rfl, rfl, rfl, rfl, rfl, rfl, rfl, rfl, rfl, rfl,
              fun hn => absurd h1 hn, fun v hv => by rw [h1] at hv; cases hv⟩
          · exact absurd h (by simp)
        · exact absurd h (by simp)
      · injection h with h
        subst h
        exact ⟨rfl, rfl, rfl, rfl, rfl, rfl, rfl, rfl, rfl, rfl, rfl,
          fun hn => absurd h1 hn, fun v hv => by rw [h1] at hv; cases hv⟩
  · rw [if_neg h1] at h
    injection h with h
    subst h
    exact ⟨rfl, rfl, rfl, rfl, rfl, rfl, rfl, rfl, rfl, rfl, rfl,
      fun _ => rfl, fun v hv => hv⟩

lemma fwdId_frame {env : PackEnv} {o o' : PackOptions}
    (h : fwdId env o = .ok o') :
    o'.contents = o.contents ∧ o'.privateKey = o.privateKey ∧
    o'.keySize = o.keySize ∧ o'.publicKey = o.publicKey ∧
    o'.crx = o.crx ∧ o'.crxVersion = o.crxVersion ∧ o'.crxUrl = o.crxUrl ∧
    o'.updateXML = o.updateXML ∧ o'.extVersion = o.extVersion ∧
    o'.minChromeVersion = o.minChromeVersion ∧ o'.manifest = o.manifest ∧
    (o.id ≠ Opt3.req → o' = o) := by
  unfold fwdId at h
  by_cases h1 : o.id = Opt3.req
  · rw [if_pos h1] at h
    split at h
    · injection h with h
      subst h
      exact ⟨rfl, rfl, rfl, rfl, rfl, rfl, rfl, rfl, rfl, rfl, rfl,
        fun hn => absurd h1 hn⟩
    · exact absurd h (by simp)
  · rw [if_neg h1] at h
    injection h with h
    subst h
    exact ⟨rfl, rfl, rfl, rfl, rfl, rfl, rfl, rfl, rfl, rfl, rfl, fun _ => rfl⟩

lemma fwdExtVersion_frame {o o' : PackOptions}
    (h : fwdExtVersion o = .ok o') :
    o'.contents = o.contents ∧ o'.privateKey = o.privateKey ∧
    o'.keySize = o.keySize ∧ o'.publicKey = o.publicKey ∧
    o'.crx = o.crx ∧ o'.crxVersion = o.crxVersion ∧ o'.crxUrl = o.crxUrl ∧
    o'.id = o.id ∧ o'.updateXML = o.updateXML ∧
    o'.minChromeVersion = o.minChromeVersion ∧ o'.manifest = o.manifest ∧
    (o.extVersion ≠ Opt3.req → o' = o) := by
  unfold fwdExtVersion at h
  by_cases h1 : o.extVersion = Opt3.req
  · rw [if_pos h1] at h
    split at h
    · injection h with h
      subst h
      exact ⟨rfl, rfl, rfl, rfl, rfl, rfl, rfl, rfl, rfl, rfl, rfl,
        fun hn => absurd h1 hn⟩
    · exact absurd h (by simp)
  · rw [if_neg h1] at h
    injection h with h
    subst h
    exact ⟨rfl, rfl, rfl, rfl, rfl, rfl, rfl, rfl, rfl, rfl, rfl, fun _ => rfl⟩

lemma fwdKeys_frame {env : PackEnv} {o o' : PackOptions}
    (h : fwdKeys env o = .ok o') :
    o'.contents = o.contents ∧ o'.keySize = o.keySize ∧ o'.crx = o.crx ∧
    o'.crxVersion = o.crxVersion ∧ o'.crxUrl = o.crxUrl ∧ o'.id = o.id ∧
    o'.updateXML = o.updateXML ∧ o'.extVersion = o.extVersion ∧
    o'.minChromeVersion = o.minChromeVersion ∧ o'.manifest = o.manifest := by
  unfold fwdKeys at h
  by_cases h1 : o.privateKey = Opt3.req
  · rw [if_pos h1] at h
    injection h with h
    subst h
    exact ⟨rfl, rfl, rfl, rfl, rfl, rfl, rfl, rfl, rfl, rfl⟩
  · rw [if_neg h1] at h
    by_cases h2 : o.publicKey = Opt3.req
    · rw [if_pos h2] at h
      cases hp : o.privateKey with
      | given p =>
        rw [hp] at h
        injection h with h
        subst h
        exact ⟨rfl, rfl, rfl, rfl, rfl, rfl, rfl, rfl, rfl, rfl⟩
      | req => exact absurd hp h1
      | unset =>
        rw [hp] at h
        exact absurd h (by simp)
    · rw [if_neg h2] at h
      injection h with h
      subst h
      exact ⟨rfl, rfl, rfl, rfl, rfl, rfl, rfl, rfl, rfl, rfl⟩

/-- The manifest's minimum-platform field, as the optional-chaining
expression `options.manifest?.minimum_chrome_version` sees it: `null` and
`undefined` manifests give `undefined`. -/
def manifestMcv : Opt3 Manifest → Option String
  | Opt3.given m => m.minimum_chrome_version
  | _ => none

/-- Modelled from the spec (amended by the JavaScript `||` semantics the
code uses): the expected resolution of a requested `minChromeVersion` — a
declared nonempty manifest value wins; otherwise (no manifest, no field,
or an empty-string field) container version 3 or unset falls back to
`"73.0.3683"` and any other version leaves the field unset. -/
def specMinChromeVersion (v : Option Nat) (mv : Option String) : Opt3 String :=
  match mv with
  | some s =>
    if s = "" then
      (if v = some 3 ∨ v = none then Opt3.given "73.0.3683" else Opt3.unset)
    else Opt3.given s
  | none =>
    if v = some 3 ∨ v = none then Opt3.given "73.0.3683" else Opt3.unset

lemma fwdMinChrome_notreq {o : PackOptions} (h : o.minChromeVersion ≠ Opt3.req) :
    fwdMinChrome o = o := by
  unfold fwdMinChrome
  rw [if_neg h]

lemma fwdMinChrome_req {o : PackOptions} (h : o.minChromeVersion = Opt3.req) :
    fwdMinChrome o = { o with
      minChromeVersion := specMinChromeVersion o.crxVersion (manifestMcv o.manifest) } := by
  unfold fwdMinChrome specMinChromeVersion manifestMcv
  rw [if_pos h]
  cases hm : o.manifest with
  | given m =>
    cases hv : m.minimum_chrome_version with
    | some s =>
      by_cases hs : s = ""
      · by_cases hcv : o.crxVersion = some 3 ∨ o.crxVersion = none
        · simp [hm, hv, hs, hcv]
        · simp [hm, hv, hs, hcv]
      · simp [hm, hv, hs]
    | none =>
      by_cases hcv : o.crxVersion = some 3 ∨ o.crxVersion = none
      · simp [hm, hv, hcv]
      · simp [hm, hv, hcv]
  | req =>
    by_cases hcv : o.crxVersion = some 3 ∨ o.crxVersion = none
    · simp [hm, hcv]
    · simp [hm, hcv]
  | unset =>
    by_cases hcv : o.crxVersion = some 3 ∨ o.crxVersion = none
    · simp [hm, hcv]
    · simp [hm, hcv]

lemma fwdUpdateXML_frame (env : PackEnv) (o : PackOptions) :
    (fwdUpdateXML env o).contents = o.contents ∧
    (fwdUpdateXML env o).privateKey = o.privateKey ∧
    (fwdUpdateXML env o).keySize = o.keySize ∧
    (fwdUpdateXML env o).publicKey = o.publicKey ∧
    (fwdUpdateXML env o).crx = o.crx ∧
    (fwdUpdateXML env o).crxVersion = o.crxVersion ∧
    (fwdUpdateXML env o).crxUrl = o.crxUrl ∧
    (fwdUpdateXML env o).id = o.id ∧
    (fwdUpdateXML env o).extVersion = o.extVersion ∧
    (fwdUpdateXML env o).minChromeVersion = o.minChromeVersion ∧
    (fwdUpdateXML env o).manifest = o.manifest ∧
    (o.updateXML ≠ Opt3.req → fwdUpdateXML env o = o) := by
  unfold fwdUpdateXML
  by_cases h1 : o.updateXML = Opt3.req
  · rw [if_pos h1]
    exact ⟨rfl, rfl, rfl, rfl, rfl, rfl, rfl, rfl, rfl, rfl, rfl,
      fun hn => absurd h1 hn⟩
  · rw [if_neg h1]
    exact ⟨rfl, rfl, rfl, rfl, rfl, rfl, rfl, rfl, rfl, rfl, rfl, fun _ => rfl⟩

lemma fwdMinChrome_frame (o : PackOptions) :
    (fwdMinChrome o).contents = o.contents ∧
    (fwdMinChrome o).privateKey = o.privateKey ∧
    (fwdMinChrome o).keySize = o.keySize ∧
    (fwdMinChrome o).publicKey = o.publicKey ∧
    (fwdMinChrome o).crx = o.crx ∧
    (fwdMinChrome o).crxVersion = o.crxVersion ∧
    (fwdMinChrome o).crxUrl = o.crxUrl ∧
    (fwdMinChrome o).id = o.id ∧
    (fwdMinChrome o).updateXML = o.updateXML ∧
    (fwdMinChrome o).extVersion = o.extVersion ∧
    (fwdMinChrome o).manifest = o.manifest ∧
    (o.minChromeVersion ≠ Opt3.req → fwdMinChrome o = o) := by
  by_cases h : o.minChromeVersion = Opt3.req
  · rw [fwdMinChrome_req h]
    exact ⟨rfl, rfl, rfl, rfl, rfl, rfl, rfl, rfl, rfl, rfl, rfl,
      fun hn => absurd h hn⟩
  · rw [fwdMinChrome_notreq h]
    exact ⟨rfl, rfl, rfl, rfl, rfl, rfl, rfl, rfl, rfl, rfl, rfl, fun _ => rfl⟩

lemma fwdContents_frame (env : PackEnv) (o : PackOptions) :
    (fwdContents env o).privateKey = o.privateKey ∧
    (fwdContents env o).keySize = o.keySize ∧
    (fwdContents env o).publicKey = o.publicKey ∧
    (fwdContents env o).crx = o.crx ∧
    (fwdContents env o).crxVersion = o.crxVersion ∧
    (fwdContents env o).crxUrl = o.crxUrl ∧
    (fwdContents env o).id = o.id ∧
    (fwdContents env o).updateXML = o.updateXML ∧
    (fwdContents env o).extVersion = o.extVersion ∧
    (fwdContents env o).minChromeVersion = o.minChromeVersion := by
  unfold fwdContents
  cases o.contents <;>
    exact ⟨rfl, rfl, rfl, rfl, rfl, rfl, rfl, rfl, rfl, rfl⟩

/-! ### Concrete inputs for the pack claims -/

/-- A concrete collaborator bundle for evaluating `pack` at closed inputs. -/
def baseEnv : PackEnv where
  sha256 := fun _ => List.range 32
  genPrivateKey := fun _ => [1]
  derivePublicKey := fun _ => [2]
  packContentsDir := fun _ => ([3], ⟨"2.0", none⟩)
  sign3 := fun _ _ => [4]
  sign2 := fun _ _ => [5]
  renderUpdateXML := fun _ _ _ _ => "xml"

/-- The all-absent `PackInput`. -/
def baseOpts : PackOptions where
  contents := ContentsField.unset
  privateKey := Opt3.unset
  keySize := none
  publicKey := Opt3.unset
  id := Opt3.unset
  crx := Opt3.req
  crxVersion := none
  crxUrl := none
  updateXML := Opt3.unset
  extVersion := Opt3.unset
  minChromeVersion := Opt3.unset
  manifest := Opt3.unset

/-! ### C5: unsupported crxVersion -/

/-- The C5 input: `crx` requested, contents and keys given, `crxVersion: 4`. -/
def c5Input : PackOptions := { baseOpts with
  contents := ContentsField.bytes [9]
  privateKey := Opt3.given [7]
  publicKey := Opt3.given [8]
  crx := Opt3.req
  crxVersion := some 4 }

/-- C5 (code bug): with an explicit `crxVersion` of 4, `pack` raises no
error at all — the version dispatch has no else branch — and returns the
record with `crx` still in its requested (`null`) state, contradicting the
claimed named configuration error, the README's promise that a `null`
property is generated, and the source's own `TransformPack` return type
(`crx: Uint8Array`). -/
theorem c5_unsupported_version_silent :
    pack baseEnv c5Input = .ok c5Input ∧ c5Input.crx = Opt3.req :=
  ⟨rfl, rfl⟩

/-! ### C8: contents required before key generation -/

/-- C8 (counterexample): with `crx` requested and no contents, but also
`updateXML` requested without a `crxUrl`, `pack` fails with the crxUrl
error, not the claimed contents error (the updateXML block runs first). -/
theorem c8_crxurl_error_first :
    pack baseEnv { baseOpts with crx := Opt3.req, updateXML := Opt3.req } =
      .error "crxUrl must be defined to generate updateXML" ∧
    "crxUrl must be defined to generate updateXML" ≠
      "contents must be defined to generate crx" :=
  ⟨rfl, by decide⟩

/-- C8 (amended): for every collaborator bundle and every input with `crx`
requested and `contents` absent — except when the earlier updateXML step
already fails for want of a `crxUrl` — `pack` fails with the
contents-required configuration error; the quantification over the entire
collaborator bundle shows no key generation (and no other collaborator
call) can influence or precede this failure. -/
theorem c8_contents_required (env : PackEnv) (o : PackOptions)
    (hcrx : o.crx = Opt3.req) (hc : o.contents = ContentsField.unset)
    (hnx : ¬(o.updateXML = Opt3.req ∧ o.crxUrl = none)) :
    pack env o = .error "contents must be defined to generate crx" := by
  obtain ⟨o1, e1⟩ : ∃ o1, backUpdateXML o = .ok o1 := by
    unfold backUpdateXML
    by_cases hu : o.updateXML = Opt3.req
    · rw [if_pos hu, if_neg (fun h => hnx ⟨hu, h⟩)]
      exact ⟨_, rfl⟩
    · rw [if_neg hu]
      exact ⟨_, rfl⟩
  have hchar := backUpdateXML_char e1
  have h1crx : o1.crx = o.crx := by rw [hchar]
  have h1c : o1.contents = o.contents := by rw [hchar]
  have e4 : backCrx (backMinChrome (backExtVersion o1)) =
      .error "contents must be defined to generate crx" := by
    apply backCrx_error
    · rw [backMinChrome_char, backExtVersion_char]
      show o1.crx = Opt3.req
      rw [h1crx]
      exact hcrx
    · rw [backMinChrome_char, backExtVersion_char]
      show o1.contents = ContentsField.unset
      rw [h1c]
      exact hc
  simp only [pack, e1, bindOk]
  rw [e4, bindError]

/-- C8 (witness): the amended theorem at the plain `{crx: null}` input. -/
theorem c8_contents_required_witness :
    pack baseEnv baseOpts = .error "contents must be defined to generate crx" :=
  c8_contents_required baseEnv baseOpts rfl rfl (by decide)

lemma bindOkElim {ε α β : Type} {x : Except ε α} {f : α → Except ε β} {b : β}
    (h : (x >>= f) = .ok b) : ∃ a, x = .ok a ∧ f a = .ok b := by
  cases x with
  | error e =>
    rw [bindError] at h
    exact (Except.noConfusion h)
  | ok a => exact ⟨a, rfl, h⟩

/-! ### C9: minChromeVersion resolution -/

/-- C9 (counterexample): a manifest that declares `minimum_chrome_version`
as the empty string does not propagate that declared value — JavaScript
`||` treats `""` as falsy, so the version-3 fallback wins. -/
theorem c9_empty_string_falls_back :
    pack baseEnv { baseOpts with
      crx := Opt3.unset
      minChromeVersion := Opt3.req
      manifest := Opt3.given ⟨"1.0", some ""⟩
      crxVersion := some 3 } =
    .ok { baseOpts with
      crx := Opt3.unset
      minChromeVersion := Opt3.given "73.0.3683"
      manifest := Opt3.given ⟨"1.0", some ""⟩
      crxVersion := some 3 } ∧
    (Opt3.given "73.0.3683" : Opt3 String) ≠ Opt3.given "" :=
  ⟨rfl, by decide⟩

/-- C9 (amended): whenever `pack` succeeds with `minChromeVersion`
requested, the returned field equals the expected resolution
`specMinChromeVersion` of the caller's `crxVersion` and the resolved
manifest's minimum-platform field: a nonempty declared value wins;
otherwise version 3 or unset falls back to "73.0.3683" and any other
version leaves the field unset (an empty-string declared value counts as
undeclared). -/
theorem c9_minchrome_resolution (env : PackEnv) (o r : PackOptions)
    (hok : pack env o = .ok r) (hreq : o.minChromeVersion = Opt3.req) :
    r.minChromeVersion = specMinChromeVersion o.crxVersion (manifestMcv r.manifest) := by
  simp only [pack] at hok
  obtain ⟨o1, e1, hok⟩ := bindOkElim hok
  try dsimp only at hok
  have hc1 := backUpdateXML_char e1
  have h1m : o1.minChromeVersion = Opt3.req := by rw [hc1]; simp [hreq]
  have h1v : o1.crxVersion = o.crxVersion := by rw [hc1]
  have h3m : (backMinChrome (backExtVersion o1)).minChromeVersion = Opt3.req := by
    rw [backMinChrome_char, backExtVersion_char]
    exact h1m
  have h3v : (backMinChrome (backExtVersion o1)).crxVersion = o.crxVersion := by
    rw [backMinChrome_char, backExtVersion_char]
    exact h1v
  obtain ⟨o4, e4, hok⟩ := bindOkElim hok
  try dsimp only at hok
  have hc4 := backCrx_char e4
  have h4m : o4.minChromeVersion = Opt3.req := by rw [hc4]; exact h3m
  have h4v : o4.crxVersion = o.crxVersion := by rw [hc4]; exact h3v
  have h6m : (backPublicKey (backId o4)).minChromeVersion = Opt3.req := by
    rw [backPublicKey_char, backId_char]
    exact h4m
  have h6v : (backPublicKey (backId o4)).crxVersion = o.crxVersion := by
    rw [backPublicKey_char, backId_char]
    exact h4v
  obtain ⟨o7, e7, hok⟩ := bindOkElim hok
  try dsimp only at hok
  obtain ⟨-, -, -, h7v, -, -, -, -, h7m, -⟩ := fwdKeys_frame e7
  have h8 := fwdContents_char env o7
  have h8m : (fwdContents env o7).minChromeVersion = o7.minChromeVersion := by
    cases hc : o7.contents with
    | path p => rw [h8.1 p hc]
    | bytes b => rw [h8.2 (by simp [hc])]
    | unset => rw [h8.2 (by simp [hc])]
  have h8v : (fwdContents env o7).crxVersion = o7.crxVersion := by
    cases hc : o7.contents with
    | path p => rw [h8.1 p hc]
    | bytes b => rw [h8.2 (by simp [hc])]
    | unset => rw [h8.2 (by simp [hc])]
  obtain ⟨o9, e9, hok⟩ := bindOkElim hok
  try dsimp only at hok
  obtain ⟨-, -, -, -, h9v, -, -, -, -, h9m, h9man, -, -⟩ := fwdCrx_frame e9
  obtain ⟨o10, e10, hok⟩ := bindOkElim hok
  try dsimp only at hok
  obtain ⟨-, -, -, -, -, h10v, -, -, -, h10m, h10man, -⟩ := fwdId_frame e10
  obtain ⟨o11, e11, hok⟩ := bindOkElim hok
  try dsimp only at hok
  obtain ⟨-, -, -, -, -, h11v, -, -, -, h11m, h11man, -⟩ := fwdExtVersion_frame e11
  have h11mreq : o11.minChromeVersion = Opt3.req := by
    rw [h11m, h10m, h9m, h8m, h7m]
    exact h6m
  have h11vv : o11.crxVersion = o.crxVersion := by
    rw [h11v, h10v, h9v, h8v, h7v]
    exact h6v
  have h12 := fwdMinChrome_req h11mreq
  have hr : fwdUpdateXML env (fwdMinChrome o11) = r := by
    simpa [pure, Except.pure] using hok
  subst hr
  obtain ⟨-, -, -, -, -, -, -, -, -, hUm, hUman, -⟩ :=
    fwdUpdateXML_frame env (fwdMinChrome o11)
  rw [hUm, hUman, h12]
  show specMinChromeVersion o11.crxVersion (manifestMcv o11.manifest) =
    specMinChromeVersion o.crxVersion (manifestMcv o11.manifest)
  rw [h11vv]

/-- The C9 witness input: `minChromeVersion` requested against a manifest
declaring "90.0", container version 3. -/
def c9Input : PackOptions := { baseOpts with
  crx := Opt3.unset
  minChromeVersion := Opt3.req
  manifest := Opt3.given ⟨"1.0", some "90.0"⟩
  crxVersion := some 3 }

/-- The record `pack` returns for `c9Input`. -/
def c9Output : PackOptions := { c9Input with minChromeVersion := Opt3.given "90.0" }

/-- C9 (witness): the amended theorem applied to a manifest declaring
`minimum_chrome_version` = "90.0" with container version 3. -/
theorem c9_minchrome_resolution_witness :
    pack baseEnv c9Input = .ok c9Output ∧
    c9Output.minChromeVersion =
      specMinChromeVersion c9Input.crxVersion (manifestMcv c9Output.manifest) :=
  ⟨rfl, c9_minchrome_resolution baseEnv c9Input c9Output rfl rfl⟩

/-! ### C6: caller-given fields are preserved -/

/-- The amended C6 property: every caller-given field comes back with the
caller's value, with the two exceptions the code forces — a given
`publicKey` is regenerated when a fresh private key is generated (that is,
when `privateKey` was requested, or was absent while `crx` was requested),
and a given `manifest` is overwritten when `contents` is a directory path;
the never-written fields come back unchanged. -/
def givenPreserved (o r : PackOptions) : Prop :=
  (∀ b, o.contents = ContentsField.bytes b → r.contents = ContentsField.bytes b) ∧
  (∀ k, o.privateKey = Opt3.given k → r.privateKey = Opt3.given k) ∧
  (∀ k, o.publicKey = Opt3.given k → o.privateKey ≠ Opt3.req →
    ¬(o.privateKey = Opt3.unset ∧ o.crx = Opt3.req) → r.publicKey = Opt3.given k) ∧
  (∀ c, o.crx = Opt3.given c → r.crx = Opt3.given c) ∧
  (∀ s, o.id = Opt3.given s → r.id = Opt3.given s) ∧
  (∀ s, o.updateXML = Opt3.given s → r.updateXML = Opt3.given s) ∧
  (∀ s, o.extVersion = Opt3.given s → r.extVersion = Opt3.given s) ∧
  (∀ s, o.minChromeVersion = Opt3.given s → r.minChromeVersion = Opt3.given s) ∧
  (∀ m, o.manifest = Opt3.given m → (∀ p, o.contents ≠ ContentsField.path p) →
    r.manifest = Opt3.given m) ∧
  r.keySize = o.keySize ∧ r.crxVersion = o.crxVersion ∧ r.crxUrl = o.crxUrl

/-- C6 (amended): whenever `pack` succeeds, the returned record satisfies
`givenPreserved`: all caller-given fields are returned untouched except a
given `publicKey` when a fresh key pair is generated and a given `manifest`
when `contents` is a directory path. -/
theorem c6_given_preserved (env : PackEnv) (o r : PackOptions)
    (hok : pack env o = .ok r) : givenPreserved o r := by
  simp only [pack] at hok
  obtain ⟨o1, e1, hok⟩ := bindOkElim hok
  try dsimp only at hok
  obtain ⟨o4, e4, hok⟩ := bindOkElim hok
  try dsimp only at hok
  obtain ⟨o7, e7, hok⟩ := bindOkElim hok
  try dsimp only at hok
  obtain ⟨o9, e9, hok⟩ := bindOkElim hok
  try dsimp only at hok
  obtain ⟨o10, e10, hok⟩ := bindOkElim hok
  try dsimp only at hok
  obtain ⟨o11, e11, hok⟩ := bindOkElim hok
  try dsimp only at hok
  have hr : fwdUpdateXML env (fwdMinChrome o11) = r := by
    simpa [pure, Except.pure] using hok
  subst hr
  have hc1 := backUpdateXML_char e1
  have hc4 := backCrx_char e4
  have hK := fwdKeys_char e7
  obtain ⟨k_c, k_ks, k_crx, k_cv, k_cu, k_id, k_uxml, k_ext, k_mcv, k_man⟩ :=
    fwdKeys_frame e7
  have hCf := fwdContents_char env o7
  obtain ⟨w_pk, w_ks, w_pub, w_crx, w_cv, w_cu, w_id, w_uxml, w_ext, w_mcv⟩ :=
    fwdContents_frame env o7
  obtain ⟨f_c, f_pk, f_ks, f_pub, f_cv, f_cu, f_id, f_uxml, f_ext, f_mcv, f_man,
    f_imp, f_given⟩ := fwdCrx_frame e9
  obtain ⟨i_c, i_pk, i_ks, i_pub, i_crx, i_cv, i_cu, i_uxml, i_ext, i_mcv, i_man,
    i_imp⟩ := fwdId_frame e10
  obtain ⟨x_c, x_pk, x_ks, x_pub, x_crx, x_cv, x_cu, x_id, x_uxml, x_mcv, x_man,
    x_imp⟩ := fwdExtVersion_frame e11
  obtain ⟨m_c, m_pk, m_ks, m_pub, m_crx, m_cv, m_cu, m_id, m_uxml, m_ext, m_man,
    m_imp⟩ := fwdMinChrome_frame o11
  obtain ⟨u_c, u_pk, u_ks, u_pub, u_crx, u_cv, u_cu, u_id, u_ext, u_mcv, u_man,
    u_imp⟩ := fwdUpdateXML_frame env (fwdMinChrome o11)
  refine ⟨?_, ?_, ?_, ?_, ?_, ?_, ?_, ?_, ?_, ?_, ?_, ?_⟩
  · -- contents
    intro b hb
    have hb1 : o1.contents = ContentsField.bytes b := by rw [hc1]; exact hb
    have hb3 : (backMinChrome (backExtVersion o1)).contents = ContentsField.bytes b := by
      rw [backMinChrome_char, backExtVersion_char]; exact hb1
    have hb4 : o4.contents = ContentsField.bytes b := by rw [hc4]; exact hb3
    have hb6 : (backPublicKey (backId o4)).contents = ContentsField.bytes b := by
      rw [backPublicKey_char, backId_char]; exact hb4
    have hb7 : o7.contents = ContentsField.bytes b := by rw [k_c]; exact hb6
    have hb8 : fwdContents env o7 = o7 := hCf.2 (by simp [hb7])
    rw [u_c, m_c, x_c, i_c, f_c, hb8, hb7]
  · -- privateKey
    intro k hk
    have h1 : o1.privateKey = Opt3.given k := by rw [hc1]; exact hk
    have h3 : (backMinChrome (backExtVersion o1)).privateKey = Opt3.given k := by
      rw [backMinChrome_char, backExtVersion_char]; exact h1
    have h4 : o4.privateKey = Opt3.given k := by rw [hc4]; simp [h3]
    have h5 : (backId o4).privateKey = Opt3.given k := by rw [backId_char]; exact h4
    have h6 : (backPublicKey (backId o4)).privateKey = Opt3.given k := by
      rw [backPublicKey_char]; simp [h5]
    have h6ne : (backPublicKey (backId o4)).privateKey ≠ Opt3.req := by
      rw [h6]; simp
    have h7 : o7.privateKey = Opt3.given k := by
      by_cases hq : (backPublicKey (backId o4)).publicKey = Opt3.req
      · obtain ⟨p, -, ho7⟩ := hK.2.2 h6ne hq
        rw [ho7]; exact h6
      · rw [hK.2.1 h6ne hq]; exact h6
    rw [u_pk, m_pk, x_pk, i_pk, f_pk, w_pk, h7]
  · -- publicKey
    intro k hk hnp1 hnp2
    have h1pub : o1.publicKey = Opt3.given k := by rw [hc1]; exact hk
    have h1pk : o1.privateKey = o.privateKey := by rw [hc1]
    have h1crx : o1.crx = o.crx := by rw [hc1]
    have h3pub : (backMinChrome (backExtVersion o1)).publicKey = Opt3.given k := by
      rw [backMinChrome_char, backExtVersion_char]; exact h1pub
    have h3pk : (backMinChrome (backExtVersion o1)).privateKey = o.privateKey := by
      rw [backMinChrome_char, backExtVersion_char]; exact h1pk
    have h3crx : (backMinChrome (backExtVersion o1)).crx = o.crx := by
      rw [backMinChrome_char, backExtVersion_char]; exact h1crx
    have h4pub : o4.publicKey = Opt3.given k := by rw [hc4]; simp [h3pub]
    have h4pk : o4.privateKey = o.privateKey := by
      rw [hc4, h3crx, h3pk]
      by_cases hcx : o.crx = Opt3.req
      · by_cases hpu : o.privateKey = Opt3.unset
        · exact absurd ⟨hpu, hcx⟩ hnp2
        · simp [hcx, hpu]
      · simp [hcx]
    have h5pub : (backId o4).publicKey = Opt3.given k := by
      rw [backId_char]; simp [h4pub]
    have h5pk : (backId o4).privateKey = o.privateKey := by
      rw [backId_char]; exact h4pk
    have h6pub : (backPublicKey (backId o4)).publicKey = Opt3.given k := by
      rw [backPublicKey_char]; exact h5pub
    have h6pk : (backPublicKey (backId o4)).privateKey = o.privateKey := by
      rw [backPublicKey_char]
      simp only [h5pub]
      simp [h5pk]
    have h7 : o7 = backPublicKey (backId o4) :=
      hK.2.1 (by rw [h6pk]; exact hnp1) (by rw [h6pub]; simp)
    rw [u_pub, m_pub, x_pub, i_pub, f_pub, w_pub, h7, h6pub]
  · -- crx
    intro c hcx
    have h1 : o1.crx = Opt3.given c := by rw [hc1]; exact hcx
    have h3 : (backMinChrome (backExtVersion o1)).crx = Opt3.given c := by
      rw [backMinChrome_char, backExtVersion_char]; exact h1
    have h4 : o4.crx = Opt3.given c := by rw [hc4]; exact h3
    have h6 : (backPublicKey (backId o4)).crx = Opt3.given c := by
      rw [backPublicKey_char, backId_char]; exact h4
    have h7 : o7.crx = Opt3.given c := by rw [k_crx]; exact h6
    have h8 : (fwdContents env o7).crx = Opt3.given c := by rw [w_crx]; exact h7
    rw [u_crx, m_crx, x_crx, i_crx]
    exact f_given c h8
  · -- id
    intro s hs
    have h1 : o1.id = Opt3.given s := by rw [hc1]; simp [hs]
    have h3 : (backMinChrome (backExtVersion o1)).id = Opt3.given s := by
      rw [backMinChrome_char, backExtVersion_char]; exact h1
    have h4 : o4.id = Opt3.given s := by rw [hc4]; exact h3
    have h6 : (backPublicKey (backId o4)).id = Opt3.given s := by
      rw [backPublicKey_char, backId_char]; exact h4
    have h7 : o7.id = Opt3.given s := by rw [k_id]; exact h6
    have h8 : (fwdContents env o7).id = Opt3.given s := by rw [w_id]; exact h7
    have h9id : o9.id = Opt3.given s := by rw [f_id]; exact h8
    have h10 : o10 = o9 := i_imp (by rw [h9id]; simp)
    rw [u_id, m_id, x_id, h10, h9id]
  · -- updateXML
    intro s hs
    have h1 : o1.updateXML = Opt3.given s := by rw [hc1]; exact hs
    have h3 : (backMinChrome (backExtVersion o1)).updateXML = Opt3.given s := by
      rw [backMinChrome_char, backExtVersion_char]; exact h1
    have h4 : o4.updateXML = Opt3.given s := by rw [hc4]; exact h3
    have h6 : (backPublicKey (backId o4)).updateXML = Opt3.given s := by
      rw [backPublicKey_char, backId_char]; exact h4
    have h7 : o7.updateXML = Opt3.given s := by rw [k_uxml]; exact h6
    have h8 : (fwdContents env o7).updateXML = Opt3.given s := by rw [w_uxml]; exact h7
    have h9u : o9.updateXML = Opt3.given s := by rw [f_uxml]; exact h8
    have h10u : o10.updateXML = Opt3.given s := by rw [i_uxml]; exact h9u
    have h11u : o11.updateXML = Opt3.given s := by rw [x_uxml]; exact h10u
    have h12u : (fwdMinChrome o11).updateXML = Opt3.given s := by
      rw [m_uxml]; exact h11u
    have hfix : fwdUpdateXML env (fwdMinChrome o11) = fwdMinChrome o11 :=
      u_imp (by rw [h12u]; simp)
    rw [hfix, h12u]
  · -- extVersion
    intro s hs
    have h1 : o1.extVersion = Opt3.given s := by rw [hc1]; simp [hs]
    have h3 : (backMinChrome (backExtVersion o1)).extVersion = Opt3.given s := by
      rw [backMinChrome_char, backExtVersion_char]; exact h1
    have h4 : o4.extVersion = Opt3.given s := by rw [hc4]; exact h3
    have h6 : (backPublicKey (backId o4)).extVersion = Opt3.given s := by
      rw [backPublicKey_char, backId_char]; exact h4
    have h7 : o7.extVersion = Opt3.given s := by rw [k_ext]; exact h6
    have h8 : (fwdContents env o7).extVersion = Opt3.given s := by rw [w_ext]; exact h7
    have h9x : o9.extVersion = Opt3.given s := by rw [f_ext]; exact h8
    have h10x : o10.extVersion = Opt3.given s := by rw [i_ext]; exact h9x
    have h11 : o11 = o10 := x_imp (by rw [h10x]; simp)
    rw [u_ext, m_ext, h11, h10x]
  · -- minChromeVersion
    intro s hs
    have h1 : o1.minChromeVersion = Opt3.given s := by rw [hc1]; simp [hs]
    have h3 : (backMinChrome (backExtVersion o1)).minChromeVersion = Opt3.given s := by
      rw [backMinChrome_char, backExtVersion_char]; exact h1
    have h4 : o4.minChromeVersion = Opt3.given s := by rw [hc4]; exact h3
    have h6 : (backPublicKey (backId o4)).minChromeVersion = Opt3.given s := by
      rw [backPublicKey_char, backId_char]; exact h4
    have h7 : o7.minChromeVersion = Opt3.given s := by rw [k_mcv]; exact h6
    have h8 : (fwdContents env o7).minChromeVersion = Opt3.given s := by
      rw [w_mcv]; exact h7
    have h9m : o9.minChromeVersion = Opt3.given s := by rw [f_mcv]; exact h8
    have h10m : o10.minChromeVersion = Opt3.given s := by rw [i_mcv]; exact h9m
    have h11m : o11.minChromeVersion = Opt3.given s := by rw [x_mcv]; exact h10m
    have h12 : fwdMinChrome o11 = o11 := m_imp (by rw [h11m]; simp)
    rw [u_mcv, h12, h11m]
  · -- manifest
    intro m hm hnp
    have h1man : o1.manifest = Opt3.given m := by rw [hc1]; exact hm
    have h2man : (backExtVersion o1).manifest = Opt3.given m := by
      rw [backExtVersion_char]; simp [h1man]
    have h3man : (backMinChrome (backExtVersion o1)).manifest = Opt3.given m := by
      rw [backMinChrome_char]; simp [h2man]
    have h4man : o4.manifest = Opt3.given m := by rw [hc4]; exact h3man
    have h6man : (backPublicKey (backId o4)).manifest = Opt3.given m := by
      rw [backPublicKey_char, backId_char]; exact h4man
    have h7man : o7.manifest = Opt3.given m := by rw [k_man]; exact h6man
    have hco1 : o1.contents = o.contents := by rw [hc1]
    have hco3 : (backMinChrome (backExtVersion o1)).contents = o.contents := by
      rw [backMinChrome_char, backExtVersion_char]; exact hco1
    have hco4 : o4.contents = o.contents := by rw [hc4]; exact hco3
    have hco6 : (backPublicKey (backId o4)).contents = o.contents := by
      rw [backPublicKey_char, backId_char]; exact hco4
    have hco7 : o7.contents = o.contents := by rw [k_c]; exact hco6
    have h8 : fwdContents env o7 = o7 :=
      hCf.2 (fun p hp => hnp p (by rw [← hco7]; exact hp))
    rw [u_man, m_man, x_man, i_man, f_man, h8, h7man]
  · -- keySize
    have h1 : o1.keySize = o.keySize := by rw [hc1]
    have h3 : (backMinChrome (backExtVersion o1)).keySize = o.keySize := by
      rw [backMinChrome_char, backExtVersion_char]; exact h1
    have h4 : o4.keySize = o.keySize := by rw [hc4]; exact h3
    have h6 : (backPublicKey (backId o4)).keySize = o.keySize := by
      rw [backPublicKey_char, backId_char]; exact h4
    have h7 : o7.keySize = o.keySize := by rw [k_ks]; exact h6
    rw [u_ks, m_ks, x_ks, i_ks, f_ks, w_ks, h7]
  · -- crxVersion
    have h1 : o1.crxVersion = o.crxVersion := by rw [hc1]
    have h3 : (backMinChrome (backExtVersion o1)).crxVersion = o.crxVersion := by
      rw [backMinChrome_char, backExtVersion_char]; exact h1
    have h4 : o4.crxVersion = o.crxVersion := by rw [hc4]; exact h3
    have h6 : (backPublicKey (backId o4)).crxVersion = o.crxVersion := by
      rw [backPublicKey_char, backId_char]; exact h4
    have h7 : o7.crxVersion = o.crxVersion := by rw [k_cv]; exact h6
    rw [u_cv, m_cv, x_cv, i_cv, f_cv, w_cv, h7]
  · -- crxUrl
    have h1 : o1.crxUrl = o.crxUrl := by rw [hc1]
    have h3 : (backMinChrome (backExtVersion o1)).crxUrl = o.crxUrl := by
      rw [backMinChrome_char, backExtVersion_char]; exact h1
    have h4 : o4.crxUrl = o.crxUrl := by rw [hc4]; exact h3
    have h6 : (backPublicKey (backId o4)).crxUrl = o.crxUrl := by
      rw [backPublicKey_char, backId_char]; exact h4
    have h7 : o7.crxUrl = o.crxUrl := by rw [k_cu]; exact h6
    rw [u_cu, m_cu, x_cu, i_cu, f_cu, w_cu, h7]

/-- The C6 counterexample input: a caller-given manifest together with
`contents` given as a directory path. -/
def c6CexInput : PackOptions := { baseOpts with
  crx := Opt3.unset
  contents := ContentsField.path "d"
  manifest := Opt3.given ⟨"1.0", none⟩ }

/-- C6 (counterexample): the destructuring assignment in the
contents-is-a-path branch overwrites the caller-given manifest `"1.0"`
with the manifest parsed from the directory (here `"2.0"`), so a given
field does not come back with the caller's value. -/
theorem c6_manifest_overwritten :
    pack baseEnv c6CexInput =
      .ok { c6CexInput with
        contents := ContentsField.bytes [3]
        manifest := Opt3.given ⟨"2.0", none⟩ } ∧
    (Opt3.given (⟨"2.0", none⟩ : Manifest) : Opt3 Manifest) ≠
      Opt3.given ⟨"1.0", none⟩ :=
  ⟨rfl, by decide⟩

/-- The C6 witness input: given contents bytes and a given id, nothing
requested. -/
def c6WitInput : PackOptions := { baseOpts with
  crx := Opt3.unset
  contents := ContentsField.bytes [5]
  id := Opt3.given "abc" }

/-- C6 (witness): the preservation theorem applied to a concrete run in
which `pack` returns its input unchanged. -/
theorem c6_given_preserved_witness : givenPreserved c6WitInput c6WitInput :=
  c6_given_preserved baseEnv c6WitInput c6WitInput rfl

/-! ### Varint lemmas for the protobuf round trip -/

lemma leb128Go_spec :
    ∀ (fuel n : Nat), n < fuel →
      ∀ rest : List Nat, readVarint (leb128Go fuel n ++ rest) = some (n, rest) := by
  intro fuel
  induction fuel with
  | zero => intro n h; omega
  | succ f ih =>
    intro n h rest
    simp only [leb128Go]
    by_cases h128 : n < 128
    · rw [if_pos h128]
      simp [readVarint, h128]
    · rw [if_neg h128]
      have hdiv : n / 128 < f := by omega
      have hb : ¬ (n % 128 + 128 < 128) := by omega
      simp only [List.cons_append, readVarint, if_neg hb, List.append_eq]
      rw [ih (n / 128) hdiv rest]
      simp only [Option.map_some', Option.some.injEq, Prod.mk.injEq]
      exact ⟨by omega, trivial⟩

lemma readVarint_leb128 (n : Nat) (rest : List Nat) :
    readVarint (leb128 n ++ rest) = some (n, rest) :=
  leb128Go_spec (n + 1) n (by omega) rest

lemma leb128_small {n : Nat} (h : n < 128) : leb128 n = [n] := by
  unfold leb128
  simp only [leb128Go]
  rw [if_pos h]

lemma leb128_length_pos (n : Nat) : 0 < (leb128 n).length := by
  unfold leb128
  simp only [leb128Go]
  split <;> simp

lemma readBytesPb_spec (l rest : List Nat) :
    readBytesPb (leb128 l.length ++ (l ++ rest)) = some (l, rest) := by
  unfold readBytesPb
  rw [readVarint_leb128]
  show some ((l ++ rest).take l.length, (l ++ rest).drop l.length) = some (l, rest)
  rw [List.take_left, List.drop_left]

lemma leb128Go_length_le :
    ∀ (fuel n k : Nat), n < fuel → 0 < k → n < 128 ^ k →
      (leb128Go fuel n).length ≤ k := by
  intro fuel
  induction fuel with
  | zero => intro n k h; omega
  | succ f ih =>
    intro n k hn hk hnk
    simp only [leb128Go]
    by_cases h128 : n < 128
    · rw [if_pos h128]
      simpa using hk
    · rw [if_neg h128]
      have hk2 : 2 ≤ k := by
        rcases k with _ | _ | k
        · omega
        · simp at hnk; omega
        · omega
      have hpow : (128 : Nat) ^ k = 128 ^ (k - 1) * 128 := by
        rw [← pow_succ]
        congr 1
        omega
      have hdivk : n / 128 < 128 ^ (k - 1) := by
        rw [Nat.div_lt_iff_lt_mul (by omega : 0 < 128)]
        omega
      have := ih (n / 128) (k - 1) (by omega) (by omega) hdivk
      simp only [List.length_cons]
      omega

lemma leb128_length_le (k n : Nat) (hk : 0 < k) (h : n < 128 ^ k) :
    (leb128 n).length ≤ k :=
  leb128Go_length_le (n + 1) n k (by omega) hk h

/-! ### Reader step lemmas -/

lemma leb128_three (n : Nat) (h1 : ¬ n < 128) (h2 : ¬ n / 128 < 128)
    (h3 : n / 128 / 128 < 128) :
    leb128 n = [n % 128 + 128, n / 128 % 128 + 128, n / 128 / 128] := by
  unfold leb128
  obtain ⟨m, hm⟩ : ∃ m, n + 1 = m + 1 + 1 + 1 := ⟨n - 2, by omega⟩
  rw [hm]
  simp only [leb128Go, if_neg h1, if_neg h2, if_pos h3]

lemma leb128_80002 : leb128 80002 = [130, 241, 4] := by
  rw [leb128_three 80002 (by norm_num) (by norm_num) (by norm_num)]

lemma signedDataRead_field1 (f : Nat) (cid rest : List Nat) (acc : Option (List Nat)) :
    signedDataRead (f + 1) (pbField 1 cid ++ rest) acc =
      signedDataRead f rest (some cid) := by
  have hform : pbField 1 cid ++ rest = 10 :: (leb128 cid.length ++ (cid ++ rest)) := by
    simp [pbField, leb128_small (show (10 : Nat) < 128 by norm_num)]
  rw [hform]
  simp [signedDataRead, readVarint, readBytesPb_spec]

lemma proofRead_step1 (f : Nat) (pk rest : List Nat) (acc : AsymmetricKeyProof) :
    proofRead (f + 1) (pbField 1 pk ++ rest) acc =
      proofRead f rest { acc with public_key := some pk } := by
  have hform : pbField 1 pk ++ rest = 10 :: (leb128 pk.length ++ (pk ++ rest)) := by
    simp [pbField, leb128_small (show (10 : Nat) < 128 by norm_num)]
  rw [hform]
  simp [proofRead, readVarint, readBytesPb_spec]

lemma proofRead_step2 (f : Nat) (sg rest : List Nat) (acc : AsymmetricKeyProof) :
    proofRead (f + 1) (pbField 2 sg ++ rest) acc =
      proofRead f rest { acc with signature := some sg } := by
  have hform : pbField 2 sg ++ rest = 18 :: (leb128 sg.length ++ (sg ++ rest)) := by
    simp [pbField, leb128_small (show (18 : Nat) < 128 by norm_num)]
  rw [hform]
  simp [proofRead, readVarint, readBytesPb_spec]

lemma proofRead_roundtrip (pub sig : List Nat) :
    proofRead ((proofWrite pub sig).length + 1) (proofWrite pub sig) ⟨none, none⟩ =
      some ⟨some pub, some sig⟩ := by
  have hpos : 0 < (pbField 1 pub).length := by
    simp [pbField, List.length_append]
    have := leb128_length_pos 10
    omega
  have hsucc : (proofWrite pub sig).length + 1 =
      ((proofWrite pub sig).length - 1) + 1 + 1 := by
    have : 0 < (proofWrite pub sig).length := by
      simp [proofWrite, List.length_append]
      omega
    omega
  rw [hsucc]
  show proofRead (((proofWrite pub sig).length - 1) + 1 + 1)
    (pbField 1 pub ++ pbField 2 sig) ⟨none, none⟩ = _
  rw [proofRead_step1]
  rw [show pbField 2 sig = pbField 2 sig ++ [] from (List.append_nil _).symm]
  rw [proofRead_step2]
  simp [proofRead]

lemma headerRead_stepProof (f : Nat) (body rest : List Nat) (acc : CrxFileHeader)
    (pr : AsymmetricKeyProof)
    (hb : proofRead (body.length + 1) body ⟨none, none⟩ = some pr) :
    crxFileHeaderRead (f + 1) (pbField 2 body ++ rest) acc =
      crxFileHeaderRead f rest
        { acc with sha256_with_rsa := acc.sha256_with_rsa ++ [pr] } := by
  have hform : pbField 2 body ++ rest = 18 :: (leb128 body.length ++ (body ++ rest)) := by
    simp [pbField, leb128_small (show (18 : Nat) < 128 by norm_num)]
  rw [hform]
  simp [crxFileHeaderRead, readVarint, readBytesPb_spec, hb]

lemma headerRead_stepShd (f : Nat) (shd rest : List Nat) (acc : CrxFileHeader) :
    crxFileHeaderRead (f + 1) (pbField 10000 shd ++ rest) acc =
      crxFileHeaderRead f rest { acc with signed_header_data := some shd } := by
  have hform : pbField 10000 shd ++ rest =
      leb128 80002 ++ (leb128 shd.length ++ (shd ++ rest)) := by
    simp [pbField]
  rw [hform]
  obtain ⟨b, t, hbt⟩ : ∃ b t, leb128 80002 = b :: t := by
    cases hl : leb128 80002 with
    | nil =>
      have := leb128_length_pos 80002
      rw [hl] at this
      simp at this
    | cons b t => exact ⟨b, t, rfl⟩
  rw [hbt, List.cons_append]
  have hv : readVarint (b :: (t ++ (leb128 shd.length ++ (shd ++ rest)))) =
      some (80002, leb128 shd.length ++ (shd ++ rest)) := by
    rw [← List.cons_append, ← hbt, readVarint_leb128]
  simp only [crxFileHeaderRead, hv, readBytesPb_spec]
  norm_num

lemma headerRead_roundtrip (pub sig shd : List Nat) :
    crxFileHeaderRead
      ((pbField 2 (proofWrite pub sig) ++ pbField 10000 shd).length + 1)
      (pbField 2 (proofWrite pub sig) ++ pbField 10000 shd) ⟨[], [], none⟩ =
      some ⟨[⟨some pub, some sig⟩], [], some shd⟩ := by
  have hpos : 0 < (pbField 2 (proofWrite pub sig)).length := by
    simp [pbField, List.length_append]
    have := leb128_length_pos 18
    omega
  have hsucc : (pbField 2 (proofWrite pub sig) ++ pbField 10000 shd).length + 1 =
      ((pbField 2 (proofWrite pub sig) ++ pbField 10000 shd).length - 1) + 1 + 1 := by
    rw [List.length_append]
    omega
  rw [hsucc]
  rw [headerRead_stepProof _ _ _ _ _ (proofRead_roundtrip pub sig)]
  rw [show pbField 10000 shd = pbField 10000 shd ++ [] from (List.append_nil _).symm]
  rw [headerRead_stepShd]
  simp [crxFileHeaderRead]

lemma signedDataRead_roundtrip (cid : List Nat) :
    signedDataRead ((signedDataWrite cid).length + 1) (signedDataWrite cid) none =
      some (some cid) := by
  show signedDataRead ((signedDataWrite cid).length + 1) (pbField 1 cid) none = _
  rw [show pbField 1 cid = pbField 1 cid ++ [] from (List.append_nil _).symm]
  rw [signedDataRead_field1]
  simp [signedDataRead]

/-! ### C2: packCrx3 / unpack round trip -/

set_option maxHeartbeats 2000000 in
/-- C2: for every private key, public key and contents (with SHA-256
producing a 32-byte digest and the key/signature sizes below 2^28, as any
real RSA material is), `unpack` of `packCrx3` succeeds with a v3 record
whose archive equals `contents` byte for byte, and the
`signed_header_data` carried by the decoded header is the serialized
`SignedData` message whose `crx_id` — recovered by the `SignedData`
reader — is exactly the first 16 bytes of the SHA-256 digest of the
public key (a 16-byte identifier). -/
theorem c2_packCrx3_roundtrip (hash sign : List Nat → List Nat)
    (priv pub contents : List Nat)
    (hh : (hash pub).length = 32)
    (hp : pub.length < 2 ^ 28)
    (hs : ∀ m, (sign m).length < 2 ^ 28) :
    unpack (packCrx3 hash sign priv pub contents) =
      .ok (.v3 contents
        ⟨[⟨some pub,
            some (generateCrx3Signature sign
              (signedDataWrite (generateBinaryCrxId hash pub)) contents)⟩], [],
          some (signedDataWrite (generateBinaryCrxId hash pub))⟩) ∧
    signedDataRead ((signedDataWrite (generateBinaryCrxId hash pub)).length + 1)
        (signedDataWrite (generateBinaryCrxId hash pub)) none =
      some (some (generateBinaryCrxId hash pub)) ∧
    generateBinaryCrxId hash pub = (hash pub).take 16 ∧
    (generateBinaryCrxId hash pub).length = 16 := by
  have hcid : (generateBinaryCrxId hash pub).length = 16 := by
    simp [generateBinaryCrxId, hh]
  refine ⟨?_, signedDataRead_roundtrip _, rfl, hcid⟩
  rw [show (2:Nat)^28 = 268435456 from by norm_num] at hp
  set cid := generateBinaryCrxId hash pub with hciddef
  set shd := signedDataWrite cid with hshddef
  set σ := generateCrx3Signature sign shd contents with hσdef
  set H := crxFileHeaderWrite [(pub, σ)] [] shd with hHdef
  have hshdlen : shd.length = 18 := by
    rw [hshddef]
    simp [signedDataWrite, pbField, hcid,
      leb128_small (show (10 : Nat) < 128 by norm_num),
      leb128_small (show (16 : Nat) < 128 by norm_num)]
  have hσlen : σ.length < 268435456 := by
    rw [hσdef]
    have := hs (kSignatureContext ++ u32le shd.length ++ shd ++ contents)
    rw [show (2:Nat)^28 = 268435456 from by norm_num] at this
    exact this
  have hlp : (leb128 pub.length).length ≤ 4 :=
    leb128_length_le 4 _ (by norm_num)
      (by rw [show (128:Nat)^4 = 268435456 from by norm_num]; exact hp)
  have hlσ : (leb128 σ.length).length ≤ 4 :=
    leb128_length_le 4 _ (by norm_num)
      (by rw [show (128:Nat)^4 = 268435456 from by norm_num]; exact hσlen)
  have hPW : (proofWrite pub σ).length =
      1 + (leb128 pub.length).length + pub.length +
      (1 + (leb128 σ.length).length + σ.length) := by
    simp [proofWrite, pbField, List.length_append,
      leb128_small (show (10 : Nat) < 128 by norm_num),
      leb128_small (show (18 : Nat) < 128 by norm_num)]
    omega
  have hPWlt : (proofWrite pub σ).length < 128 ^ 5 := by
    rw [show (128:Nat)^5 = 34359738368 from by norm_num]
    omega
  have hlPW : (leb128 (proofWrite pub σ).length).length ≤ 5 :=
    leb128_length_le 5 _ (by norm_num) hPWlt
  have hw : H = pbField 2 (proofWrite pub σ) ++ pbField 10000 shd := by
    rw [hHdef]
    simp [crxFileHeaderWrite]
  have hHlen : H.length < 4294967296 := by
    rw [hw]
    simp [pbField, List.length_append, leb128_80002, hshdlen,
      leb128_small (show (18 : Nat) < 128 by norm_num)]
    omega
  have hpack : packCrx3 hash sign priv pub contents =
      kSignature ++ kVersion ++ u32le H.length ++ H ++ contents := by
    rw [hHdef, hσdef, hshddef, hciddef]
    rfl
  rw [hpack]
  have hB : kSignature ++ kVersion ++ u32le H.length ++ H ++ contents =
      67 :: 114 :: 50 :: 52 :: 3 :: 0 :: 0 :: 0 ::
        (u32le H.length ++ (H ++ contents)) := by
    simp [kSignature, kVersion]
  rw [hB]
  unfold unpack
  have hmag : checkMagicFrom (67 :: 114 :: 50 :: 52 :: 3 :: 0 :: 0 :: 0 ::
      (u32le H.length ++ (H ++ contents))) 0 kSignature = .ok true := by
    simp [checkMagicFrom, getU8, kSignature, bindOk]
  have hver : getU32le (67 :: 114 :: 50 :: 52 :: 3 :: 0 :: 0 :: 0 ::
      (u32le H.length ++ (H ++ contents))) 4 = .ok 3 := by
    simp [getU32le, getU8, bindOk]
  have hhl : getU32le (67 :: 114 :: 50 :: 52 :: 3 :: 0 :: 0 :: 0 ::
      (u32le H.length ++ (H ++ contents))) 8 = .ok H.length := by
    simp [getU32le, getU8, u32le, bindOk]
    omega
  simp only [hmag, bindOk]
  rw [if_true]
  simp only [hver, bindOk]
  rw [if_neg (by norm_num : ¬ (3:Nat) = 2)]
  rw [if_true]
  simp only [hhl, bindOk]
  have hdrop12 : (67 :: 114 :: 50 :: 52 :: 3 :: 0 :: 0 :: 0 ::
      (u32le H.length ++ (H ++ contents))).drop 12 = H ++ contents := by
    simp [u32le]
  have harch : (67 :: 114 :: 50 :: 52 :: 3 :: 0 :: 0 :: 0 ::
      (u32le H.length ++ (H ++ contents))).drop (12 + H.length) = contents := by
    rw [← List.drop_drop, hdrop12]
    exact List.drop_left H contents
  have hhdr : ((67 :: 114 :: 50 :: 52 :: 3 :: 0 :: 0 :: 0 ::
      (u32le H.length ++ (H ++ contents))).drop 12).take H.length = H := by
    rw [hdrop12]
    exact List.take_left H contents
  rw [harch, hhdr, hw, headerRead_roundtrip]

/-- C2 (witness): the round trip at a concrete digest, signer, key and
contents buffer. -/
theorem c2_packCrx3_roundtrip_witness :
    unpack (packCrx3 (fun _ => List.range 32) (fun _ => [1]) [0] [] [9]) =
      .ok (.v3 [9]
        ⟨[⟨some [],
            some (generateCrx3Signature (fun _ => [1])
              (signedDataWrite (generateBinaryCrxId (fun _ => List.range 32) [])) [9])⟩], [],
          some (signedDataWrite (generateBinaryCrxId (fun _ => List.range 32) []))⟩) ∧
    signedDataRead
        ((signedDataWrite (generateBinaryCrxId (fun _ => List.range 32) [])).length + 1)
        (signedDataWrite (generateBinaryCrxId (fun _ => List.range 32) [])) none =
      some (some (generateBinaryCrxId (fun _ => List.range 32) [])) ∧
    generateBinaryCrxId (fun _ => List.range 32) [] =
      ((fun (_ : List Nat) => List.range 32) ([] : List Nat)).take 16 ∧
    (generateBinaryCrxId (fun _ => List.range 32) []).length = 16 :=
  c2_packCrx3_roundtrip (fun _ => List.range 32) (fun _ => [1]) [0] [] [9]
    (by simp) (by norm_num)
    (fun m => by show (1 : Nat) < 2 ^ 28; norm_num)

/-! ### C3: the canonical signing payload -/

/-- C3 (counterexample): the context string `"CRX3 SignedData\x00"` the code
signs with is 16 bytes (15 printable ASCII characters plus one NUL), not the
17 bytes the claim states. -/
theorem c3_context_is_16_bytes :
    kSignatureContext.length = 16 ∧ kSignatureContext.length ≠ 17 := by decide

/-- C3 (amended): the byte string passed to the signing primitive in
`packCrx3` is exactly the concatenation, in order, of the fixed 16-byte
ASCII context string `"CRX3 SignedData\x00"`, the 4-byte little-endian
length of `signed_header_data`, the `signed_header_data` bytes, and the
full contents buffer; the outer container framing (magic, version, header
length, header) sits only outside the signed bytes — the embedded
signature is computed from that payload alone, and the payload does not
even begin with the container magic. -/
theorem c3_sign_payload (hash sign : List Nat → List Nat)
    (priv pub contents : List Nat) :
    packCrx3 hash sign priv pub contents =
      kSignature ++ kVersion ++
        u32le (crxFileHeaderWrite
          [(pub, generateCrx3Signature sign
            (signedDataWrite (generateBinaryCrxId hash pub)) contents)]
          [] (signedDataWrite (generateBinaryCrxId hash pub))).length ++
        crxFileHeaderWrite
          [(pub, generateCrx3Signature sign
            (signedDataWrite (generateBinaryCrxId hash pub)) contents)]
          [] (signedDataWrite (generateBinaryCrxId hash pub)) ++ contents ∧
    generateCrx3Signature sign (signedDataWrite (generateBinaryCrxId hash pub))
        contents =
      sign (kSignatureContext ++
        u32le (signedDataWrite (generateBinaryCrxId hash pub)).length ++
        signedDataWrite (generateBinaryCrxId hash pub) ++ contents) ∧
    kSignatureContext.length = 16 ∧
    kSignatureContext = "CRX3 SignedData".toList.map Char.toNat ++ [0] ∧
    (kSignatureContext ++
        u32le (signedDataWrite (generateBinaryCrxId hash pub)).length ++
        signedDataWrite (generateBinaryCrxId hash pub) ++ contents).take 4 ≠
      kSignature := by
  refine ⟨rfl, rfl, rfl, by decide, ?_⟩
  simp [kSignatureContext, kSignature]

end PackCrx
